import Mathlib

/-!
Verification of the ReCall browser extension's graph-construction and layout
pipeline, shallowly embedded from the TypeScript sources:

* the background script's `processPageData` (merge of one extracted page into
  the persisted graph),
* the Zustand graph store's `searchByKeyword` and position-update operations,
* the `useGraphData` hook's deterministic seeding, force-layout pipeline and
  layout cache.

Modelling conventions:

* JavaScript string ids of the form `website-${Date.now()}-${random}` exist
  only to be globally fresh and compared for equality; they are modelled as
  natural numbers drawn from a counter threaded through the merge
  (`ctr`), which is also used as the `Date.now()` clock for `visitedAt`.
* Runtime-optional fields (a field that may be `undefined` on a JS record)
  are modelled with `Option`.
* JS `toLowerCase`/`includes`/`%`/`|0` are modelled exactly on the relevant
  value domains (`Char.toLower` per character, list infix, rational
  arithmetic with explicit 32-bit wrap-around for the hash).
-/

namespace ReCall

/-- The `Position` interface of `~/types` (`{x, y}`, JS numbers), stored on
graph nodes by a layout pass or user drag. The store only copies and
compares positions, so the coordinates are modelled as integers. -/
structure Pos where
  x : Int
  y : Int
  deriving DecidableEq

/-- The `WebsiteNode` interface of `~/types`:
`{id, url, title, favicon?, visitedAt, lastPosition?}`. The interface
declares `url` and `title` as required strings, but TypeScript types are
erased at runtime and the background script builds website nodes from an
extraction record it never validates (see `ExtractedPageData`), so the
embedding widens the two fields to `Option String` to keep a record missing
them representable; `some` is the well-typed case. -/
structure WebsiteNode where
  id : Nat
  url : Option String
  title : Option String
  favicon : Option String
  visitedAt : Nat
  lastPosition : Option Pos
  deriving DecidableEq

/-- The `KeywordNode` interface of `~/types`:
`{id, text, sourceWebsiteId?, position?}`. The background script's keyword
loop stores no `sourceWebsiteId` (the optional field is left out); only the
debug test-keyword fallback sets it. -/
structure KeywordNode where
  id : Nat
  text : String
  sourceWebsiteId : Option Nat
  position : Option Pos
  deriving DecidableEq

/-- The `MentionNode` interface of `~/types`:
`{id, text, sourceWebsiteId, context, position?}`. -/
structure MentionNode where
  id : Nat
  text : String
  sourceWebsiteId : Nat
  context : String
  position : Option Pos
  deriving DecidableEq

/-- The `WebsiteToKeywordEdge` and `WebsiteToMentionEdge` interfaces of
`~/types` (their union is its `Edge` type): `{id, source, target}`, directed
from a website node to a keyword or mention node. The two interfaces are
structurally identical, so one structure embeds both. -/
structure GraphEdge where
  id : Nat
  source : Nat
  target : Nat
  deriving DecidableEq

/-- The `GraphData` interface of `~/types`, the persisted `graphData` object:
`{websites, keywords, mentions, websiteToKeywordEdges, websiteToMentionEdges}`. -/
structure GraphData where
  websites : List WebsiteNode
  keywords : List KeywordNode
  mentions : List MentionNode
  websiteToKeywordEdges : List GraphEdge
  websiteToMentionEdges : List GraphEdge
  deriving DecidableEq

/-- The empty graph, as initialized by the background script and the store. -/
def emptyGraphData : GraphData where
  websites := []
  keywords := []
  mentions := []
  websiteToKeywordEdges := []
  websiteToMentionEdges := []

/-- One `{text, context}` mention of an `ExtractedPageData` record. -/
structure PageMention where
  text : String
  context : String
  deriving DecidableEq

/-- The `ExtractedPageData` record of the background script. Its interface
declares `url`/`title`/`favicon` as required strings, but the script obtains
the record through an unchecked runtime cast of the incoming message
(`message.data as ExtractedPageData`) with no field validation, so a record
missing one of them at runtime is representable here via `Option`. -/
structure ExtractedPageData where
  url : Option String
  title : Option String
  favicon : Option String
  keywords : List String
  mentions : List PageMention
  deriving DecidableEq

/-- JS `s.toLowerCase()`, character by character. -/
def strLower (s : String) : String :=
  ⟨s.data.map Char.toLower⟩

/-- JS `s.includes(q)`: `q` occurs as a contiguous substring of `s`
(true for the empty pattern, as in JS). -/
def strIncludes (s q : String) : Bool :=
  decide (q.data <:+: s.data)

/-- Lines 478-500 of the background script: `findIndex` of the first website
whose `url` strictly equals the incoming one, updating its
`title`/`favicon`/`visitedAt` in place; `none` when no website matches. -/
def upsertWebsiteGo (data : ExtractedPageData) (now : Nat) :
    List WebsiteNode → Option (List WebsiteNode × Nat)
  | [] => none
  | w :: ws =>
    if w.url = data.url then
      some ({ w with title := data.title, favicon := data.favicon, visitedAt := now } :: ws, w.id)
    else
      match upsertWebsiteGo data now ws with
      | some (ws', wid) => some (w :: ws', wid)
      | none => none

/-- The website list, website id and counter after the upsert step of
`processPageData`: either the first url-matching website is updated, or a
fresh website node is pushed with a newly generated id. -/
def upsertResult (data : ExtractedPageData) (g : GraphData) (ctr : Nat) :
    List WebsiteNode × Nat × Nat :=
  match upsertWebsiteGo data ctr g.websites with
  | some p => (p.1, p.2, ctr)
  | none =>
    (g.websites ++ [⟨ctr, data.url, data.title, data.favicon, ctr, none⟩], ctr, ctr + 1)

/-- The id under which the merged page's website is stored
(`websiteId` in `processPageData`). -/
def mergedWebsiteId (data : ExtractedPageData) (g : GraphData) (ctr : Nat) : Nat :=
  (upsertResult data g ctr).2.1

/-- Lines 517-521: the `keywordPositions` dictionary built from this
website's previous keywords, keyed by lowercased text; JS `forEach`
assignment makes the last matching entry win, and a miss yields `undefined`. -/
def savedKeywordPosition (existing : List KeywordNode) (nt : String) : Option Pos :=
  match (existing.filter (fun k => strLower k.text == nt)).getLast? with
  | some k => k.position
  | none => none

/-- Lines 523-557: the keyword loop. Keywords shorter than 3 characters are
skipped; otherwise the current keyword list is searched case-insensitively,
an existing node is reused, or a fresh node is pushed carrying the saved
position for its normalized text; either way an edge from the website is
pushed. Each created node/edge consumes one fresh id from the counter. -/
def processKeywords (websiteId : Nat) (existing : List KeywordNode) :
    List String → List KeywordNode → List GraphEdge → Nat →
      List KeywordNode × List GraphEdge × Nat
  | [], ks, es, c => (ks, es, c)
  | t :: rest, ks, es, c =>
    if t.length < 3 then
      processKeywords websiteId existing rest ks es c
    else
      match ks.find? (fun k => strLower k.text == strLower t) with
      | some k =>
        processKeywords websiteId existing rest ks (es ++ [⟨c, websiteId, k.id⟩]) (c + 1)
      | none =>
        processKeywords websiteId existing rest
          (ks ++ [⟨c, t, none, savedKeywordPosition existing (strLower t)⟩])
          (es ++ [⟨c + 1, websiteId, c⟩]) (c + 2)

/-- Lines 574-607: the mention loop. Mentions with text shorter than 2
characters or an empty context are skipped; otherwise a fresh mention node is
pushed, carrying over the position of this website's previous mention with
the same lowercased text when one exists, together with an edge. -/
def processMentions (websiteId : Nat) (existing : List MentionNode) :
    List PageMention → List MentionNode → List GraphEdge → Nat →
      List MentionNode × List GraphEdge × Nat
  | [], ms, es, c => (ms, es, c)
  | md :: rest, ms, es, c =>
    if md.text.length < 2 || md.context == "" then
      processMentions websiteId existing rest ms es c
    else
      let prior := existing.find? (fun m => strLower m.text == strLower md.text)
      processMentions websiteId existing rest
        (ms ++ [⟨c, md.text, websiteId, md.context, prior.bind (fun m => m.position)⟩])
        (es ++ [⟨c + 1, websiteId, c⟩]) (c + 2)

/-- The keyword phase of `processPageData` (lines 502-557): run the keyword
loop against this website's saved keyword positions, starting from the
keyword list and keyword-edge list purged of this website's entries. -/
def mergeKeywordsResult (data : ExtractedPageData) (g : GraphData) (ctr : Nat) :
    List KeywordNode × List GraphEdge × Nat :=
  processKeywords (mergedWebsiteId data g ctr)
    (g.keywords.filter (fun k => k.sourceWebsiteId == some (mergedWebsiteId data g ctr)))
    data.keywords
    (g.keywords.filter (fun k => k.sourceWebsiteId != some (mergedWebsiteId data g ctr)))
    (g.websiteToKeywordEdges.filter (fun e => e.source != mergedWebsiteId data g ctr))
    (upsertResult data g ctr).2.2

/-- The mention phase of `processPageData` (lines 559-607), continuing with
the counter left by the keyword phase. -/
def mergeMentionsResult (data : ExtractedPageData) (g : GraphData) (ctr : Nat) :
    List MentionNode × List GraphEdge × Nat :=
  processMentions (mergedWebsiteId data g ctr)
    (g.mentions.filter (fun m => m.sourceWebsiteId == mergedWebsiteId data g ctr))
    data.mentions
    (g.mentions.filter (fun m => m.sourceWebsiteId != mergedWebsiteId data g ctr))
    (g.websiteToMentionEdges.filter (fun e => e.source != mergedWebsiteId data g ctr))
    (mergeKeywordsResult data g ctr).2.2

/-- Lines 463-668 of the background script: the graph transformation of
`processPageData` (the storage read-modify-write body, after the
preference/relevance gating). Upserts the website by url, replaces this
website's keywords/mentions/edges, and finally — the debug fallback of lines
617-638 — if the graph has websites but no keyword nodes and no keyword
edges, pushes a synthetic "Test Keyword" owned by the first website plus an
edge to it. -/
def processPageData (data : ExtractedPageData) (g : GraphData) (ctr : Nat) :
    GraphData × Nat :=
  let websites1 := (upsertResult data g ctr).1
  let keywords2 := (mergeKeywordsResult data g ctr).1
  let kEdges2 := (mergeKeywordsResult data g ctr).2.1
  let mentions2 := (mergeMentionsResult data g ctr).1
  let mEdges2 := (mergeMentionsResult data g ctr).2.1
  let ctr3 := (mergeMentionsResult data g ctr).2.2
  if websites1.length > 0 && kEdges2.length == 0 && keywords2.length == 0 then
    match websites1.head? with
    | some w0 =>
      (⟨websites1, keywords2 ++ [⟨ctr3, "Test Keyword", some w0.id, none⟩], mentions2,
        kEdges2 ++ [⟨ctr3 + 1, w0.id, ctr3⟩], mEdges2⟩, ctr3 + 2)
    | none => (⟨websites1, keywords2, mentions2, kEdges2, mEdges2⟩, ctr3)
  else
    (⟨websites1, keywords2, mentions2, kEdges2, mEdges2⟩, ctr3)

/-- A sequence of merges folded over the graph/counter state. -/
def runMerges : List ExtractedPageData → GraphData × Nat → GraphData × Nat
  | [], s => s
  | d :: ds, s => runMerges ds (processPageData d s.1 s.2)

/-- The store's `resetGraph` and the background's `resetBrowsingData`: replace the graph by
the empty one. -/
def resetGraph (_ : GraphData) : GraphData :=
  emptyGraphData

/-- Operation `updateKeywordPosition` of the graph store. -/
def updateKeywordPosition (state : GraphData) (id : Nat) (position : Pos) : GraphData :=
  let ks := state.keywords.map
    (fun k => if k.id = id then { k with position := some position } else k)
  { state with keywords := ks }

/-- Operation `updateWebsitePosition` of the graph store (stores into `lastPosition`). -/
def updateWebsitePosition (state : GraphData) (id : Nat) (position : Pos) : GraphData :=
  let ws := state.websites.map
    (fun w => if w.id = id then { w with lastPosition := some position } else w)
  { state with websites := ws }

/-- Operation `updateMentionPosition` of the graph store. -/
def updateMentionPosition (state : GraphData) (id : Nat) (position : Pos) : GraphData :=
  let ms := state.mentions.map
    (fun m => if m.id = id then { m with position := some position } else m)
  { state with mentions := ms }

/-- Case-insensitive `includes` against a possibly-missing string field; the
store's own node types always carry `title`/`url`, so theorems about search
restrict to that well-formed case. -/
def optLowerIncludes (o : Option String) (q : String) : Bool :=
  match o with
  | some s => strIncludes (strLower s) q
  | none => false

/-- Lines 411-445 of the graph store: `searchByKeyword`. Lowercases the
query once, filters keywords by text and mentions by text-or-context, then
keeps the websites that own a matching keyword/mention or whose title/url
matches, returning `(websites, keywords, mentions)`. -/
def searchByKeyword (state : GraphData) (keyword : String) :
    List WebsiteNode × List KeywordNode × List MentionNode :=
  let lowercaseKeyword := strLower keyword
  let matchingKeywords := state.keywords.filter
    (fun k => strIncludes (strLower k.text) lowercaseKeyword)
  let matchingMentions := state.mentions.filter
    (fun m => strIncludes (strLower m.text) lowercaseKeyword ||
      strIncludes (strLower m.context) lowercaseKeyword)
  let websiteIds := matchingKeywords.map (fun k => k.sourceWebsiteId) ++
    matchingMentions.map (fun m => some m.sourceWebsiteId)
  let matchingWebsites := state.websites.filter
    (fun w => websiteIds.contains (some w.id) ||
      optLowerIncludes w.title lowercaseKeyword ||
      optLowerIncludes w.url lowercaseKeyword)
  (matchingWebsites, matchingKeywords, matchingMentions)

/-! ### Layout engine (`useGraphData.ts`) -/

/-- JS `x |= 0`: reduce an integer to the signed 32-bit range. -/
def toInt32 (n : Int) : Int :=
  let m := n % 4294967296
  if m < 2147483648 then m else m - 4294967296

/-- One step of the seed hash:
`hash = (hash << 5) - hash + seed.charCodeAt(i); hash |= 0`. -/
def hashStep (hash : Int) (c : Char) : Int :=
  toInt32 (toInt32 (hash * 32) - hash + c.toNat)

/-- The seed-hash loop of `generateDeterministicPosition`. -/
def jsHash (seed : String) : Int :=
  seed.data.foldl hashStep 0

/-- JS `a % m` for the non-negative dividend and modulus used below, in
exact arithmetic: `a - m * floor (a / m)`. -/
def jsMod (a m : ℚ) : ℚ :=
  a - m * ((⌊a / m⌋ : ℤ) : ℚ)

/-- Function `generateDeterministicPosition(seed, maxValue)` of `useGraphData.ts`:
hash the seed into a 32-bit integer and map its absolute value into
`[margin, maxValue - margin]` with `margin = maxValue * 0.1`. JS double
arithmetic is idealized as exact rational arithmetic. -/
def generateDeterministicPosition (seed : String) (maxValue : ℚ) : ℚ :=
  let hash := jsHash seed
  let margin := maxValue * (1 / 10)
  jsMod ((hash.natAbs : ℚ)) (maxValue - 2 * margin) + margin

/-- A ReactFlow node as produced by the layout hook; the rendering-only
payload (label, colors, styling) is omitted from the model. -/
structure FlowNode where
  id : Nat
  kind : String
  x : ℚ
  y : ℚ
  deriving DecidableEq

/-- Hook helper `createWebsiteNode`: seeded deterministic initial position from the
website id and the viewport dimensions. -/
def createWebsiteNode (site : WebsiteNode) (width height : ℚ) : FlowNode where
  id := site.id
  kind := "website"
  x := generateDeterministicPosition (("website-" ++ toString site.id) ++ "-x") width
  y := generateDeterministicPosition (("website-" ++ toString site.id) ++ "-y") height

/-- Hook helper `createKeywordNode`: seeded deterministic initial position from the
keyword id and the viewport dimensions. -/
def createKeywordNode (keyword : KeywordNode) (width height : ℚ) : FlowNode where
  id := keyword.id
  kind := "keyword"
  x := generateDeterministicPosition (("keyword-" ++ toString keyword.id) ++ "-x") width
  y := generateDeterministicPosition (("keyword-" ++ toString keyword.id) ++ "-y") height

/-- A d3 simulation node: an id with coordinates. -/
structure SimNode where
  id : Nat
  x : ℚ
  y : ℚ
  deriving DecidableEq

/-- The 300-tick d3 force simulation, abstracted as an arbitrary function
from the initial sim nodes, links and viewport to the final sim nodes (its
floating-point physics is outside the embedding; the cache and empty-graph
theorems below hold for every simulation). -/
def Simulation : Type :=
  List SimNode → List (Nat × Nat) → ℚ → ℚ → List SimNode

/-- The module-level `layoutStorage` object, keyed by fingerprint strings. -/
def LayoutCache : Type :=
  List (String × (List FlowNode × List GraphEdge))

/-- Property read `layoutStorage[key]`. -/
def cacheLookup (cache : LayoutCache) (key : String) :
    Option (List FlowNode × List GraphEdge) :=
  (cache.find? (fun p => p.1 == key)).map (fun p => p.2)

/-- Property write `layoutStorage[key] = v`. -/
def cacheInsert (cache : LayoutCache) (key : String)
    (v : List FlowNode × List GraphEdge) : LayoutCache :=
  (key, v) :: cache.eraseP (fun p => p.1 == key)

/-- Hook helper `applyForceLayout`: on an empty node list publish empty results without
simulating or caching; otherwise run the simulation from the nodes' current
positions, write the simulated positions back, store the layout in the
cache under the fingerprint key and report one simulation run (the final
`Nat` counts simulation runs). -/
def applyForceLayout (sim : Simulation) (nodes : List FlowNode)
    (edges : List GraphEdge) (width height : ℚ) (cacheKey : String)
    (cache : LayoutCache) :
    (List FlowNode × List GraphEdge) × LayoutCache × Nat :=
  if nodes.length = 0 then (([], []), cache, 0)
  else
    let simNodes := nodes.map (fun n => SimNode.mk n.id n.x n.y)
    let simLinks := edges.map (fun e => (e.source, e.target))
    let result := sim simNodes simLinks width height
    let layoutedNodes := nodes.map (fun n =>
      match result.find? (fun sn => sn.id == n.id) with
      | some sn => { n with x := sn.x, y := sn.y }
      | none => n)
    ((layoutedNodes, edges),
      cacheInsert cache ("history-graph-" ++ cacheKey) (layoutedNodes, edges), 1)

/-- Hook helper `processGraphData`: convert the stored graph into flow nodes (websites
then keywords) and keyword edges, then lay them out. -/
def processGraphData (sim : Simulation) (gd : GraphData) (width height : ℚ)
    (cacheKey : String) (cache : LayoutCache) :
    (List FlowNode × List GraphEdge) × LayoutCache × Nat :=
  applyForceLayout sim
    (gd.websites.map (fun site => createWebsiteNode site width height) ++
      gd.keywords.map (fun keyword => createKeywordNode keyword width height))
    gd.websiteToKeywordEdges width height cacheKey cache

/-- The storage branch of `loadHistory`: with stored graph data holding at
least one website, process it; otherwise publish empty results. -/
def loadFromStorage (sim : Simulation) (cache : LayoutCache) (cacheKey : String)
    (graphData : Option GraphData) (width height : ℚ) :
    (List FlowNode × List GraphEdge) × LayoutCache × Nat :=
  match graphData with
  | some gd =>
    if gd.websites.length > 0 then processGraphData sim gd width height cacheKey cache
    else (([], []), cache, 0)
  | none => (([], []), cache, 0)

/-- Hook entry `loadHistory` (the `computeLayout` of the layout engine):
serve the cached layout for the exact fingerprint key when present with a
non-empty node list, bypassing the simulation entirely; otherwise fall
through to the stored graph. -/
def computeLayout (sim : Simulation) (cache : LayoutCache) (cacheKey : String)
    (graphData : Option GraphData) (width height : ℚ) :
    (List FlowNode × List GraphEdge) × LayoutCache × Nat :=
  match cacheLookup cache ("history-graph-" ++ cacheKey) with
  | some cached =>
    if cached.1.length > 0 then ((cached.1, cached.2), cache, 0)
    else loadFromStorage sim cache cacheKey graphData width height
  | none => loadFromStorage sim cache cacheKey graphData width height

/-- A trivial simulation (used to instantiate the cache theorems at a
concrete input): returns the nodes unmoved. -/
def idSimulation : Simulation :=
  fun simNodes _ _ _ => simNodes

/-- Spec invariant 2: no two keyword nodes share a case-insensitive text. -/
def keywordsUnique (l : List KeywordNode) : Prop :=
  l.Pairwise (fun a b => strLower a.text ≠ strLower b.text)

instance (l : List KeywordNode) : Decidable (keywordsUnique l) :=
  List.instDecidablePairwise l

/-- All node and edge ids of the graph are below the id counter. Every graph
built by merges from the empty graph satisfies this for its final counter,
since ids are only ever drawn fresh from the counter. -/
def BoundedGraph (g : GraphData) (c : Nat) : Prop :=
  (∀ w ∈ g.websites, w.id < c) ∧ (∀ k ∈ g.keywords, k.id < c) ∧
  (∀ m ∈ g.mentions, m.id < c) ∧
  (∀ e ∈ g.websiteToKeywordEdges, e.id < c) ∧
  (∀ e ∈ g.websiteToMentionEdges, e.id < c)

instance (g : GraphData) (c : Nat) : Decidable (BoundedGraph g c) := by
  unfold BoundedGraph
  infer_instance

/-- The invariant parts of edge validity that hold unconditionally: every
edge's source is an existing website id, and every mention edge's target is
an existing mention node owned by the edge's source website. -/
def EdgeSourcesValid (g : GraphData) : Prop :=
  (∀ e ∈ g.websiteToKeywordEdges, ∃ w ∈ g.websites, w.id = e.source) ∧
  (∀ e ∈ g.websiteToMentionEdges, ∃ w ∈ g.websites, w.id = e.source) ∧
  (∀ e ∈ g.websiteToMentionEdges, ∃ m ∈ g.mentions,
    m.id = e.target ∧ m.sourceWebsiteId = e.source)

/-- Keyword-edge targets exist, strengthened with the fact that keyword
nodes carry no owner (which fails once the debug fallback fires). -/
def KeywordTargetsValid (g : GraphData) : Prop :=
  (∀ k ∈ g.keywords, k.sourceWebsiteId = none) ∧
  (∀ e ∈ g.websiteToKeywordEdges, ∃ k ∈ g.keywords, k.id = e.target)

/-! ### Structural properties of the keyword loop -/

theorem pk_shape (wid : Nat) (ex : List KeywordNode) :
    ∀ (ts : List String) (ks : List KeywordNode) (es : List GraphEdge) (c : Nat),
      ∃ ks₂ es₂,
        (processKeywords wid ex ts ks es c).1 = ks ++ ks₂ ∧
        (processKeywords wid ex ts ks es c).2.1 = es ++ es₂ ∧
        (∀ k ∈ ks₂, k.sourceWebsiteId = none ∧ c ≤ k.id) ∧
        (∀ e ∈ es₂, e.source = wid ∧ c ≤ e.id ∧
          ∃ k ∈ (processKeywords wid ex ts ks es c).1, k.id = e.target) ∧
        c ≤ (processKeywords wid ex ts ks es c).2.2
  | [], ks, es, c => by
    refine ⟨[], [], by simp [processKeywords], by simp [processKeywords], ?_, ?_, ?_⟩ <;>
      simp [processKeywords]
  | t :: rest, ks, es, c => by
    by_cases h3 : t.length < 3
    · simpa [processKeywords, h3] using pk_shape wid ex rest ks es c
    · rcases hf : ks.find? (fun k => strLower k.text == strLower t) with _ | k₀
      · -- no existing node: a fresh keyword and a fresh edge are pushed
        have hstep : processKeywords wid ex (t :: rest) ks es c =
            processKeywords wid ex rest
              (ks ++ [⟨c, t, none, savedKeywordPosition ex (strLower t)⟩])
              (es ++ [⟨c + 1, wid, c⟩]) (c + 2) := by
          simp [processKeywords, h3, hf]
        obtain ⟨ks₂, es₂, h1, h2, h4, h5, h6⟩ :=
          pk_shape wid ex rest (ks ++ [⟨c, t, none, savedKeywordPosition ex (strLower t)⟩])
            (es ++ [⟨c + 1, wid, c⟩]) (c + 2)
        rw [hstep]
        refine ⟨⟨c, t, none, savedKeywordPosition ex (strLower t)⟩ :: ks₂,
          ⟨c + 1, wid, c⟩ :: es₂, by simpa using h1, by simpa using h2, ?_, ?_, by omega⟩
        · intro k hk
          rcases List.mem_cons.1 hk with rfl | hk
          · exact ⟨rfl, le_refl c⟩
          · exact ⟨(h4 k hk).1, le_trans (by omega) (h4 k hk).2⟩
        · intro e he
          rcases List.mem_cons.1 he with rfl | he
          · refine ⟨rfl, Nat.le_succ c, ⟨c, t, none, savedKeywordPosition ex (strLower t)⟩, ?_, rfl⟩
            rw [h1]
            simp
          · obtain ⟨hs, hc, k, hkmem, hkt⟩ := h5 e he
            exact ⟨hs, by omega, k, hkmem, hkt⟩
      · -- reuse the found node, pushing only an edge
        have hstep : processKeywords wid ex (t :: rest) ks es c =
            processKeywords wid ex rest ks (es ++ [⟨c, wid, k₀.id⟩]) (c + 1) := by
          simp [processKeywords, h3, hf]
        obtain ⟨ks₂, es₂, h1, h2, h4, h5, h6⟩ :=
          pk_shape wid ex rest ks (es ++ [⟨c, wid, k₀.id⟩]) (c + 1)
        rw [hstep]
        refine ⟨ks₂, ⟨c, wid, k₀.id⟩ :: es₂, h1, by simpa using h2, ?_, ?_, by omega⟩
        · intro k hk
          exact ⟨(h4 k hk).1, le_trans (by omega) (h4 k hk).2⟩
        · intro e he
          rcases List.mem_cons.1 he with rfl | he
          · refine ⟨rfl, le_refl c, k₀, ?_, rfl⟩
            rw [h1]
            exact List.mem_append_left _ (List.mem_of_find?_eq_some hf)
          · obtain ⟨hs, hc, k, hkmem, hkt⟩ := h5 e he
            exact ⟨hs, by omega, k, hkmem, hkt⟩

theorem pk_mem_keywords (wid : Nat) (ex : List KeywordNode) (ts : List String)
    (ks : List KeywordNode) (es : List GraphEdge) (c : Nat) {k : KeywordNode}
    (hk : k ∈ ks) : k ∈ (processKeywords wid ex ts ks es c).1 := by
  obtain ⟨ks₂, es₂, h1, -⟩ := pk_shape wid ex ts ks es c
  rw [h1]
  exact List.mem_append_left _ hk

theorem pk_mem_edges (wid : Nat) (ex : List KeywordNode) (ts : List String)
    (ks : List KeywordNode) (es : List GraphEdge) (c : Nat) {e : GraphEdge}
    (he : e ∈ es) : e ∈ (processKeywords wid ex ts ks es c).2.1 := by
  obtain ⟨ks₂, es₂, h1, h2, -⟩ := pk_shape wid ex ts ks es c
  rw [h2]
  exact List.mem_append_left _ he

theorem pk_keyword_cases (wid : Nat) (ex : List KeywordNode) (ts : List String)
    (ks : List KeywordNode) (es : List GraphEdge) (c : Nat) {k : KeywordNode}
    (hk : k ∈ (processKeywords wid ex ts ks es c).1) :
    k ∈ ks ∨ (k.sourceWebsiteId = none ∧ c ≤ k.id) := by
  obtain ⟨ks₂, es₂, h1, h2, h4, -⟩ := pk_shape wid ex ts ks es c
  rw [h1] at hk
  rcases List.mem_append.1 hk with h | h
  · exact Or.inl h
  · exact Or.inr (h4 k h)

theorem pk_edge_cases (wid : Nat) (ex : List KeywordNode) (ts : List String)
    (ks : List KeywordNode) (es : List GraphEdge) (c : Nat) {e : GraphEdge}
    (he : e ∈ (processKeywords wid ex ts ks es c).2.1) :
    e ∈ es ∨ (e.source = wid ∧ c ≤ e.id ∧
      ∃ k ∈ (processKeywords wid ex ts ks es c).1, k.id = e.target) := by
  obtain ⟨ks₂, es₂, h1, h2, h4, h5, -⟩ := pk_shape wid ex ts ks es c
  rw [h2] at he
  rcases List.mem_append.1 he with h | h
  · exact Or.inl h
  · exact Or.inr (h5 e h)

theorem pk_counter_le (wid : Nat) (ex : List KeywordNode) (ts : List String)
    (ks : List KeywordNode) (es : List GraphEdge) (c : Nat) :
    c ≤ (processKeywords wid ex ts ks es c).2.2 := by
  obtain ⟨-, -, -, -, -, -, h6⟩ := pk_shape wid ex ts ks es c
  exact h6

theorem pk_unique (wid : Nat) (ex : List KeywordNode) :
    ∀ (ts : List String) (ks : List KeywordNode) (es : List GraphEdge) (c : Nat),
      keywordsUnique ks → keywordsUnique (processKeywords wid ex ts ks es c).1
  | [], ks, es, c, hu => by simpa [processKeywords] using hu
  | t :: rest, ks, es, c, hu => by
    by_cases h3 : t.length < 3
    · simpa [processKeywords, h3] using pk_unique wid ex rest ks es c hu
    · rcases hf : ks.find? (fun k => strLower k.text == strLower t) with _ | k₀
      · have hstep : processKeywords wid ex (t :: rest) ks es c =
            processKeywords wid ex rest
              (ks ++ [⟨c, t, none, savedKeywordPosition ex (strLower t)⟩])
              (es ++ [⟨c + 1, wid, c⟩]) (c + 2) := by
          simp [processKeywords, h3, hf]
        rw [hstep]
        refine pk_unique wid ex rest _ _ _ ?_
        rw [keywordsUnique, List.pairwise_append]
        refine ⟨hu, List.pairwise_singleton _ _, ?_⟩
        intro a ha b hb
        have hfa := List.find?_eq_none.1 hf a ha
        simp only [List.mem_singleton] at hb
        subst hb
        intro hcontra
        exact hfa (by simpa using hcontra)
      · have hstep : processKeywords wid ex (t :: rest) ks es c =
            processKeywords wid ex rest ks (es ++ [⟨c, wid, k₀.id⟩]) (c + 1) := by
          simp [processKeywords, h3, hf]
        rw [hstep]
        exact pk_unique wid ex rest _ _ _ hu

theorem pk_exists (wid : Nat) (ex : List KeywordNode) :
    ∀ (ts : List String) (ks : List KeywordNode) (es : List GraphEdge) (c : Nat)
      (t : String), t ∈ ts → 3 ≤ t.length →
      ∃ k ∈ (processKeywords wid ex ts ks es c).1, strLower k.text = strLower t ∧
        ∃ e ∈ (processKeywords wid ex ts ks es c).2.1, e.source = wid ∧ e.target = k.id
  | [], ks, es, c, t, ht, hlen => absurd ht (List.not_mem_nil t)
  | t' :: rest, ks, es, c, t, ht, hlen => by
    rcases List.mem_cons.1 ht with rfl | htrest
    · -- head: this keyword is processed now
      have h3 : ¬t.length < 3 := by omega
      rcases hf : ks.find? (fun k => strLower k.text == strLower t) with _ | k₀
      · have hstep : processKeywords wid ex (t :: rest) ks es c =
            processKeywords wid ex rest
              (ks ++ [⟨c, t, none, savedKeywordPosition ex (strLower t)⟩])
              (es ++ [⟨c + 1, wid, c⟩]) (c + 2) := by
          simp [processKeywords, h3, hf]
        rw [hstep]
        refine ⟨⟨c, t, none, savedKeywordPosition ex (strLower t)⟩,
          pk_mem_keywords wid ex rest _ _ _ (by simp), rfl, ⟨c + 1, wid, c⟩,
          pk_mem_edges wid ex rest _ _ _ (by simp), rfl, rfl⟩
      · have hstep : processKeywords wid ex (t :: rest) ks es c =
            processKeywords wid ex rest ks (es ++ [⟨c, wid, k₀.id⟩]) (c + 1) := by
          simp [processKeywords, h3, hf]
        rw [hstep]
        have hk₀ : strLower k₀.text = strLower t := by
          simpa using List.find?_some hf
        exact ⟨k₀, pk_mem_keywords wid ex rest _ _ _ (List.mem_of_find?_eq_some hf), hk₀,
          ⟨c, wid, k₀.id⟩, pk_mem_edges wid ex rest _ _ _ (by simp), rfl, rfl⟩
    · -- the keyword occurs later in the list
      by_cases h3 : t'.length < 3
      · have hstep : processKeywords wid ex (t' :: rest) ks es c =
            processKeywords wid ex rest ks es c := by
          simp [processKeywords, h3]
        rw [hstep]
        exact pk_exists wid ex rest ks es c t htrest hlen
      · rcases hf : ks.find? (fun k => strLower k.text == strLower t') with _ | k₀
        · have hstep : processKeywords wid ex (t' :: rest) ks es c =
              processKeywords wid ex rest
                (ks ++ [⟨c, t', none, savedKeywordPosition ex (strLower t')⟩])
                (es ++ [⟨c + 1, wid, c⟩]) (c + 2) := by
            simp [processKeywords, h3, hf]
          rw [hstep]
          exact pk_exists wid ex rest _ _ _ t htrest hlen
        · have hstep : processKeywords wid ex (t' :: rest) ks es c =
              processKeywords wid ex rest ks (es ++ [⟨c, wid, k₀.id⟩]) (c + 1) := by
            simp [processKeywords, h3, hf]
          rw [hstep]
          exact pk_exists wid ex rest _ _ _ t htrest hlen

theorem pk_pos (wid : Nat) (ex : List KeywordNode) :
    ∀ (ts : List String) (ks : List KeywordNode) (es : List GraphEdge) (c : Nat)
      (t : String), t ∈ ts → 3 ≤ t.length →
      (∀ k ∈ ks, strLower k.text = strLower t →
        k.position = savedKeywordPosition ex (strLower t)) →
      ∃ k ∈ (processKeywords wid ex ts ks es c).1, strLower k.text = strLower t ∧
        k.position = savedKeywordPosition ex (strLower t)
  | [], ks, es, c, t, ht, hlen, hpos => absurd ht (List.not_mem_nil t)
  | t' :: rest, ks, es, c, t, ht, hlen, hpos => by
    by_cases h3 : t'.length < 3
    · have hstep : processKeywords wid ex (t' :: rest) ks es c =
          processKeywords wid ex rest ks es c := by
        simp [processKeywords, h3]
      rw [hstep]
      rcases List.mem_cons.1 ht with rfl | htrest
      · omega
      · exact pk_pos wid ex rest ks es c t htrest hlen hpos
    · rcases hf : ks.find? (fun k => strLower k.text == strLower t') with _ | k₀
      · have hstep : processKeywords wid ex (t' :: rest) ks es c =
            processKeywords wid ex rest
              (ks ++ [⟨c, t', none, savedKeywordPosition ex (strLower t')⟩])
              (es ++ [⟨c + 1, wid, c⟩]) (c + 2) := by
          simp [processKeywords, h3, hf]
        rw [hstep]
        have hpos' : ∀ k ∈ ks ++ [⟨c, t', none, savedKeywordPosition ex (strLower t')⟩],
            strLower k.text = strLower t →
            k.position = savedKeywordPosition ex (strLower t) := by
          intro k hk hkt
          rcases List.mem_append.1 hk with hk | hk
          · exact hpos k hk hkt
          · simp only [List.mem_singleton] at hk
            subst hk
            simp only at hkt ⊢
            rw [hkt]
        rcases List.mem_cons.1 ht with rfl | htrest
        · exact ⟨⟨c, t, none, savedKeywordPosition ex (strLower t)⟩,
            pk_mem_keywords wid ex rest _ _ _ (by simp), rfl, rfl⟩
        · exact pk_pos wid ex rest _ _ _ t htrest hlen hpos'
      · have hstep : processKeywords wid ex (t' :: rest) ks es c =
            processKeywords wid ex rest ks (es ++ [⟨c, wid, k₀.id⟩]) (c + 1) := by
          simp [processKeywords, h3, hf]
        rw [hstep]
        rcases List.mem_cons.1 ht with rfl | htrest
        · have hk₀t : strLower k₀.text = strLower t := by
            simpa using List.find?_some hf
          exact ⟨k₀, pk_mem_keywords wid ex rest _ _ _ (List.mem_of_find?_eq_some hf), hk₀t,
            hpos k₀ (List.mem_of_find?_eq_some hf) hk₀t⟩
        · exact pk_pos wid ex rest _ _ _ t htrest hlen hpos

/-! ### Structural properties of the mention loop -/

theorem pm_shape (wid : Nat) (ex : List MentionNode) :
    ∀ (mds : List PageMention) (ms : List MentionNode) (es : List GraphEdge) (c : Nat),
      ∃ ms₂ es₂,
        (processMentions wid ex mds ms es c).1 = ms ++ ms₂ ∧
        (processMentions wid ex mds ms es c).2.1 = es ++ es₂ ∧
        (∀ m ∈ ms₂, m.sourceWebsiteId = wid ∧ c ≤ m.id) ∧
        (∀ e ∈ es₂, e.source = wid ∧ c ≤ e.id ∧
          ∃ m ∈ (processMentions wid ex mds ms es c).1,
            m.id = e.target ∧ m.sourceWebsiteId = wid) ∧
        c ≤ (processMentions wid ex mds ms es c).2.2
  | [], ms, es, c => by
    refine ⟨[], [], by simp [processMentions], by simp [processMentions], ?_, ?_, ?_⟩ <;>
      simp [processMentions]
  | md :: rest, ms, es, c => by
    by_cases hskip : md.text.length < 2 || md.context == ""
    · simpa [processMentions, hskip] using pm_shape wid ex rest ms es c
    · have hstep : processMentions wid ex (md :: rest) ms es c =
          processMentions wid ex rest
            (ms ++ [⟨c, md.text, wid, md.context,
              (ex.find? (fun m => strLower m.text == strLower md.text)).bind
                (fun m => m.position)⟩])
            (es ++ [⟨c + 1, wid, c⟩]) (c + 2) := by
        simp [processMentions, hskip]
      obtain ⟨ms₂, es₂, h1, h2, h4, h5, h6⟩ :=
        pm_shape wid ex rest
          (ms ++ [⟨c, md.text, wid, md.context,
            (ex.find? (fun m => strLower m.text == strLower md.text)).bind
              (fun m => m.position)⟩])
          (es ++ [⟨c + 1, wid, c⟩]) (c + 2)
      rw [hstep]
      refine ⟨⟨c, md.text, wid, md.context,
          (ex.find? (fun m => strLower m.text == strLower md.text)).bind
            (fun m => m.position)⟩ :: ms₂,
        ⟨c + 1, wid, c⟩ :: es₂, by simpa using h1, by simpa using h2, ?_, ?_, by omega⟩
      · intro m hm
        rcases List.mem_cons.1 hm with rfl | hm
        · exact ⟨rfl, le_refl c⟩
        · exact ⟨(h4 m hm).1, le_trans (by omega) (h4 m hm).2⟩
      · intro e he
        rcases List.mem_cons.1 he with rfl | he
        · refine ⟨rfl, Nat.le_succ c, ⟨c, md.text, wid, md.context,
            (ex.find? (fun m => strLower m.text == strLower md.text)).bind
              (fun m => m.position)⟩, ?_, rfl, rfl⟩
          rw [h1]
          simp
        · obtain ⟨hs, hc, m, hmmem, hmt, hmw⟩ := h5 e he
          exact ⟨hs, by omega, m, hmmem, hmt, hmw⟩

theorem pm_mem_mentions (wid : Nat) (ex : List MentionNode) (mds : List PageMention)
    (ms : List MentionNode) (es : List GraphEdge) (c : Nat) {m : MentionNode}
    (hm : m ∈ ms) : m ∈ (processMentions wid ex mds ms es c).1 := by
  obtain ⟨ms₂, es₂, h1, -⟩ := pm_shape wid ex mds ms es c
  rw [h1]
  exact List.mem_append_left _ hm

theorem pm_mention_cases (wid : Nat) (ex : List MentionNode) (mds : List PageMention)
    (ms : List MentionNode) (es : List GraphEdge) (c : Nat) {m : MentionNode}
    (hm : m ∈ (processMentions wid ex mds ms es c).1) :
    m ∈ ms ∨ (m.sourceWebsiteId = wid ∧ c ≤ m.id) := by
  obtain ⟨ms₂, es₂, h1, h2, h4, -⟩ := pm_shape wid ex mds ms es c
  rw [h1] at hm
  rcases List.mem_append.1 hm with h | h
  · exact Or.inl h
  · exact Or.inr (h4 m h)

theorem pm_edge_cases (wid : Nat) (ex : List MentionNode) (mds : List PageMention)
    (ms : List MentionNode) (es : List GraphEdge) (c : Nat) {e : GraphEdge}
    (he : e ∈ (processMentions wid ex mds ms es c).2.1) :
    e ∈ es ∨ (e.source = wid ∧ c ≤ e.id ∧
      ∃ m ∈ (processMentions wid ex mds ms es c).1,
        m.id = e.target ∧ m.sourceWebsiteId = wid) := by
  obtain ⟨ms₂, es₂, h1, h2, h4, h5, -⟩ := pm_shape wid ex mds ms es c
  rw [h2] at he
  rcases List.mem_append.1 he with h | h
  · exact Or.inl h
  · exact Or.inr (h5 e h)

theorem pm_counter_le (wid : Nat) (ex : List MentionNode) (mds : List PageMention)
    (ms : List MentionNode) (es : List GraphEdge) (c : Nat) :
    c ≤ (processMentions wid ex mds ms es c).2.2 := by
  obtain ⟨-, -, -, -, -, -, h6⟩ := pm_shape wid ex mds ms es c
  exact h6

theorem pm_exists (wid : Nat) (ex : List MentionNode) :
    ∀ (mds : List PageMention) (ms : List MentionNode) (es : List GraphEdge) (c : Nat)
      (md : PageMention), md ∈ mds → 2 ≤ md.text.length → md.context ≠ "" →
      ∃ m ∈ (processMentions wid ex mds ms es c).1, m.text = md.text ∧
        m.context = md.context ∧ m.sourceWebsiteId = wid ∧ c ≤ m.id ∧
        m.position = (ex.find? (fun m0 => strLower m0.text == strLower md.text)).bind
          (fun m0 => m0.position)
  | [], ms, es, c, md, hmd, _, _ => absurd hmd (List.not_mem_nil md)
  | md' :: rest, ms, es, c, md, hmd, hlen, hctx => by
    by_cases hskip : md'.text.length < 2 || md'.context == ""
    · have hstep : processMentions wid ex (md' :: rest) ms es c =
          processMentions wid ex rest ms es c := by
        simp [processMentions, hskip]
      rw [hstep]
      rcases List.mem_cons.1 hmd with rfl | hrest
      · exfalso
        rcases Bool.or_eq_true_iff.1 hskip with h | h
        · simp only [decide_eq_true_eq] at h
          omega
        · exact hctx (by simpa using h)
      · exact pm_exists wid ex rest ms es c md hrest hlen hctx
    · have hstep : processMentions wid ex (md' :: rest) ms es c =
          processMentions wid ex rest
            (ms ++ [⟨c, md'.text, wid, md'.context,
              (ex.find? (fun m => strLower m.text == strLower md'.text)).bind
                (fun m => m.position)⟩])
            (es ++ [⟨c + 1, wid, c⟩]) (c + 2) := by
        simp [processMentions, hskip]
      rw [hstep]
      rcases List.mem_cons.1 hmd with rfl | hrest
      · exact ⟨⟨c, md.text, wid, md.context,
          (ex.find? (fun m => strLower m.text == strLower md.text)).bind
            (fun m => m.position)⟩,
          pm_mem_mentions wid ex rest _ _ _ (by simp), rfl, rfl, rfl, le_refl c, rfl⟩
      · obtain ⟨m, hmmem, hprops⟩ := pm_exists wid ex rest _ _ (c + 2) md hrest hlen hctx
        exact ⟨m, hmmem, hprops.1, hprops.2.1, hprops.2.2.1, by omega, hprops.2.2.2.2⟩

/-! ### Properties of the website upsert -/

theorem uwg_preserves (data : ExtractedPageData) (now : Nat) :
    ∀ (ws ws' : List WebsiteNode) (wid : Nat),
      upsertWebsiteGo data now ws = some (ws', wid) →
      (∀ w ∈ ws, ∃ w' ∈ ws', w'.id = w.id ∧ w'.url = w.url ∧
        w'.lastPosition = w.lastPosition) ∧
      (∃ w' ∈ ws', w'.id = wid ∧ w'.url = data.url)
  | [], ws', wid, h => by simp [upsertWebsiteGo] at h
  | w :: ws, ws', wid, h => by
    by_cases hurl : w.url = data.url
    · simp only [upsertWebsiteGo, if_pos hurl, Option.some.injEq, Prod.mk.injEq] at h
      obtain ⟨hws', hwid⟩ := h
      subst hws' hwid
      constructor
      · intro v hv
        rcases List.mem_cons.1 hv with rfl | hv
        · exact ⟨{ v with title := data.title, favicon := data.favicon, visitedAt := now },
            by simp, rfl, rfl, rfl⟩
        · exact ⟨v, List.mem_cons_of_mem _ hv, rfl, rfl, rfl⟩
      · exact ⟨{ w with title := data.title, favicon := data.favicon, visitedAt := now },
          by simp, rfl, hurl⟩
    · simp only [upsertWebsiteGo, if_neg hurl] at h
      rcases hrec : upsertWebsiteGo data now ws with _ | p
      · rw [hrec] at h
        simp at h
      · rw [hrec] at h
        simp only [Option.some.injEq, Prod.mk.injEq] at h
        obtain ⟨hws', hwid⟩ := h
        obtain ⟨hpre, w', hw', hprops⟩ := uwg_preserves data now ws p.1 p.2 (by
          rw [hrec])
        constructor
        · intro v hv
          rcases List.mem_cons.1 hv with rfl | hv
          · exact ⟨v, by rw [← hws']; simp, rfl, rfl, rfl⟩
          · obtain ⟨v', hv', hp⟩ := hpre v hv
            exact ⟨v', by rw [← hws']; exact List.mem_cons_of_mem _ hv', hp⟩
        · refine ⟨w', ?_, by rw [← hwid]; exact hprops.1, hprops.2⟩
          rw [← hws']
          exact List.mem_cons_of_mem _ hw'

theorem upsertResult_preserves (data : ExtractedPageData) (g : GraphData) (ctr : Nat) :
    (∀ w ∈ g.websites, ∃ w' ∈ (upsertResult data g ctr).1, w'.id = w.id ∧
      w'.url = w.url ∧ w'.lastPosition = w.lastPosition) ∧
    (∃ w' ∈ (upsertResult data g ctr).1, w'.id = mergedWebsiteId data g ctr ∧
      w'.url = data.url) := by
  rw [upsertResult, mergedWebsiteId, upsertResult]
  rcases h : upsertWebsiteGo data ctr g.websites with _ | p
  · constructor
    · intro w hw
      exact ⟨w, List.mem_append_left _ hw, rfl, rfl, rfl⟩
    · exact ⟨⟨ctr, data.url, data.title, data.favicon, ctr, none⟩, by simp, rfl, rfl⟩
  · obtain ⟨hpre, hex⟩ := uwg_preserves data ctr g.websites p.1 p.2 (by rw [h])
    exact ⟨hpre, hex⟩

/-! ### The two possible outcomes of a merge -/

theorem ppd_shape (data : ExtractedPageData) (g : GraphData) (ctr : Nat) :
    (processPageData data g ctr =
      (⟨(upsertResult data g ctr).1, (mergeKeywordsResult data g ctr).1,
        (mergeMentionsResult data g ctr).1, (mergeKeywordsResult data g ctr).2.1,
        (mergeMentionsResult data g ctr).2.1⟩, (mergeMentionsResult data g ctr).2.2)) ∨
    (∃ w0, (upsertResult data g ctr).1.head? = some w0 ∧
      (mergeKeywordsResult data g ctr).1 = [] ∧
      (mergeKeywordsResult data g ctr).2.1 = [] ∧
      processPageData data g ctr =
        (⟨(upsertResult data g ctr).1,
          [⟨(mergeMentionsResult data g ctr).2.2, "Test Keyword", some w0.id, none⟩],
          (mergeMentionsResult data g ctr).1,
          [⟨(mergeMentionsResult data g ctr).2.2 + 1, w0.id,
            (mergeMentionsResult data g ctr).2.2⟩],
          (mergeMentionsResult data g ctr).2.1⟩,
          (mergeMentionsResult data g ctr).2.2 + 2)) := by
  simp only [processPageData]
  split
  · next hcond =>
    simp only [Bool.and_eq_true, decide_eq_true_eq, beq_iff_eq] at hcond
    have hk0 : (mergeKeywordsResult data g ctr).1 = [] :=
      List.length_eq_zero.1 hcond.2
    have he0 : (mergeKeywordsResult data g ctr).2.1 = [] :=
      List.length_eq_zero.1 hcond.1.2
    split
    · next w0 hhead =>
      right
      exact ⟨w0, hhead, hk0, he0, by rw [hk0, he0]; simp⟩
    · next hhead => exact Or.inl rfl
  · next hcond => exact Or.inl rfl

theorem merge_websites (data : ExtractedPageData) (g : GraphData) (ctr : Nat) :
    (processPageData data g ctr).1.websites = (upsertResult data g ctr).1 := by
  rcases ppd_shape data g ctr with h | ⟨w0, -, -, -, h⟩ <;> rw [h]

theorem merge_mentions (data : ExtractedPageData) (g : GraphData) (ctr : Nat) :
    (processPageData data g ctr).1.mentions = (mergeMentionsResult data g ctr).1 := by
  rcases ppd_shape data g ctr with h | ⟨w0, -, -, -, h⟩ <;> rw [h]

theorem merge_mention_edges (data : ExtractedPageData) (g : GraphData) (ctr : Nat) :
    (processPageData data g ctr).1.websiteToMentionEdges =
      (mergeMentionsResult data g ctr).2.1 := by
  rcases ppd_shape data g ctr with h | ⟨w0, -, -, -, h⟩ <;> rw [h]

/-! ### Case-insensitive uniqueness machinery -/

theorem unique_filter_singleton :
    ∀ (l : List KeywordNode), keywordsUnique l → ∀ {k : KeywordNode}, k ∈ l →
      ∀ (nt : String), strLower k.text = nt →
      l.filter (fun x => strLower x.text == nt) = [k]
  | [], _, k, hk, _, _ => absurd hk (List.not_mem_nil k)
  | a :: tl, hu, k, hk, nt, hkt => by
    obtain ⟨ha, hu'⟩ := List.pairwise_cons.1 hu
    rcases List.mem_cons.1 hk with rfl | hk
    · have htl : tl.filter (fun x => strLower x.text == nt) = [] := by
        rw [List.filter_eq_nil_iff]
        intro x hx hcontra
        exact ha x hx (by rw [hkt]; exact (beq_iff_eq.1 (by simpa using hcontra)).symm)
      simp [List.filter_cons, hkt, htl]
    · have hne : ¬(strLower a.text == nt) = true := by
        intro hcontra
        exact ha k hk (by rw [hkt]; exact beq_iff_eq.1 (by simpa using hcontra))
      simp only [List.filter_cons, if_neg hne]
      exact unique_filter_singleton tl hu' hk nt hkt

theorem unique_mem_eq (l : List KeywordNode) (hu : keywordsUnique l)
    {k k' : KeywordNode} (hk : k ∈ l) (hk' : k' ∈ l)
    (ht : strLower k.text = strLower k'.text) : k = k' := by
  have h1 := unique_filter_singleton l hu hk (strLower k'.text) ht
  have h2 : k' ∈ l.filter (fun x => strLower x.text == strLower k'.text) :=
    List.mem_filter.2 ⟨hk', by simp⟩
  rw [h1] at h2
  exact (List.mem_singleton.1 h2).symm

/-! ### Merge-level consequences -/

theorem ppd_of_valid_keyword (data : ExtractedPageData) (g : GraphData) (ctr : Nat)
    (t : String) (ht : t ∈ data.keywords) (hlen : 3 ≤ t.length) :
    processPageData data g ctr =
      (⟨(upsertResult data g ctr).1, (mergeKeywordsResult data g ctr).1,
        (mergeMentionsResult data g ctr).1, (mergeKeywordsResult data g ctr).2.1,
        (mergeMentionsResult data g ctr).2.1⟩, (mergeMentionsResult data g ctr).2.2) := by
  rcases ppd_shape data g ctr with h | ⟨w0, -, -, he0, h⟩
  · exact h
  · exfalso
    have hex : ∃ k ∈ (mergeKeywordsResult data g ctr).1, strLower k.text = strLower t ∧
        ∃ e ∈ (mergeKeywordsResult data g ctr).2.1,
          e.source = mergedWebsiteId data g ctr ∧ e.target = k.id :=
      pk_exists _ _ data.keywords _ _ _ t ht hlen
    obtain ⟨k, -, -, e, he, -⟩ := hex
    rw [he0] at he
    exact absurd he (List.not_mem_nil e)

theorem merge_preserves_unique (data : ExtractedPageData) (g : GraphData) (ctr : Nat)
    (hu : keywordsUnique g.keywords) :
    keywordsUnique (processPageData data g ctr).1.keywords := by
  have hstart : keywordsUnique (g.keywords.filter
      (fun k => k.sourceWebsiteId != some (mergedWebsiteId data g ctr))) :=
    List.Pairwise.sublist (List.filter_sublist g.keywords) hu
  have hKR : keywordsUnique (mergeKeywordsResult data g ctr).1 := by
    rw [mergeKeywordsResult]
    exact pk_unique _ _ data.keywords _ _ _ hstart
  rcases ppd_shape data g ctr with h | ⟨w0, -, -, -, h⟩
  · rw [h]
    exact hKR
  · rw [h]
    exact List.pairwise_singleton _ _

theorem merge_keeps_unowned_keyword (data : ExtractedPageData) (g : GraphData)
    (ctr : Nat) {k : KeywordNode} (hk : k ∈ g.keywords)
    (hnone : k.sourceWebsiteId = none) :
    k ∈ (processPageData data g ctr).1.keywords := by
  have hk1 : k ∈ g.keywords.filter
      (fun x => x.sourceWebsiteId != some (mergedWebsiteId data g ctr)) :=
    List.mem_filter.2 ⟨hk, by rw [hnone]; rfl⟩
  have hk2 : k ∈ (mergeKeywordsResult data g ctr).1 := by
    rw [mergeKeywordsResult]
    exact pk_mem_keywords _ _ _ _ _ _ hk1
  rcases ppd_shape data g ctr with h | ⟨w0, -, hkemp, -, h⟩
  · rw [h]
    exact hk2
  · rw [hkemp] at hk2
    exact absurd hk2 (List.not_mem_nil k)

/-! ### Claim C10: survival of merge-created keyword nodes -/

/-- C10 (amended): a merge removes only keyword nodes whose `sourceWebsiteId`
equals the merged website's id, and keyword nodes created by the normal
keyword loop carry no `sourceWebsiteId`; hence every keyword node without a
`sourceWebsiteId` survives any sequence of merges unchanged, even when its
text stops appearing in merged pages (it stays as an edge-less node until a
graph reset). The claim's universal form is false for the debug fallback's
`Test Keyword`, which is merge-created but carries a `sourceWebsiteId`. -/
theorem unowned_keywords_never_removed :
    ∀ (ds : List ExtractedPageData) (g : GraphData) (ctr : Nat) (k : KeywordNode),
      k ∈ g.keywords → k.sourceWebsiteId = none →
      k ∈ (runMerges ds (g, ctr)).1.keywords
  | [], _, _, _, hk, _ => hk
  | d :: ds, g, ctr, k, hk, hnone =>
    unowned_keywords_never_removed ds _ _ k
      (merge_keeps_unowned_keyword d g ctr hk hnone) hnone

/-- Witness for C10 (amended): a concrete unowned keyword node survives a
concrete merge. -/
theorem unowned_keywords_never_removed_witness :
    ((⟨7, "alpha", none, none⟩ : KeywordNode) ∈
      (⟨[], [⟨7, "alpha", none, none⟩], [], [], []⟩ : GraphData).keywords) ∧
    (⟨7, "alpha", none, none⟩ : KeywordNode).sourceWebsiteId = none ∧
    (⟨7, "alpha", none, none⟩ : KeywordNode) ∈
      (runMerges [⟨some ("u"), some ("t"), none, [], []⟩]
        ((⟨[], [⟨7, "alpha", none, none⟩], [], [], []⟩ : GraphData), 10)).1.keywords :=
  ⟨by decide, by decide,
    unowned_keywords_never_removed _ _ _ _ (by decide) (by decide)⟩

/-- C10 counterexample: the debug fallback of a first merge (page with no
keywords) creates the keyword node `Test Keyword` carrying
`sourceWebsiteId = some 0`; re-merging the same url afterwards removes that
merge-created keyword node, so it is not the case that every previously
merge-created keyword node survives every merge. -/
theorem keyword_gc_counterexample :
    (⟨1, "Test Keyword", some 0, none⟩ : KeywordNode) ∈
      (runMerges [⟨some ("u1"), some ("t1"), none, [], []⟩]
        (emptyGraphData, 0)).1.keywords ∧
    (⟨1, "Test Keyword", some 0, none⟩ : KeywordNode) ∉
      (runMerges [⟨some ("u1"), some ("t1"), none, [], []⟩,
        ⟨some ("u1"), some ("t1"), none, ["alpha"], []⟩]
        (emptyGraphData, 0)).1.keywords := by
  decide

/-! ### Claim C5: merging a malformed extraction record -/

/-- C5 (amended): `processPageData` performs no required-field validation:
an extraction record whose `url`/`title` are missing is merged like any
other, upserting a website node that carries the missing `url`, so the graph
does not stay unchanged. -/
theorem malformed_input_merged (data : ExtractedPageData) (g : GraphData) (ctr : Nat) :
    ∃ w ∈ (processPageData data g ctr).1.websites, w.url = data.url := by
  obtain ⟨-, w, hw, -, hurl⟩ := upsertResult_preserves data g ctr
  refine ⟨w, ?_, hurl⟩
  rw [merge_websites]
  exact hw

/-- C5 counterexample: merging a record with no `url` and no `title` into the
empty graph changes the graph (a website node is persisted), where the claim
says the merge is skipped and the graph left unchanged. -/
theorem malformed_input_counterexample :
    (processPageData ⟨none, none, none, [], []⟩ emptyGraphData 0).1 ≠ emptyGraphData ∧
    (processPageData ⟨none, none, none, [], []⟩ emptyGraphData 0).1.websites.length = 1 := by
  decide

/-! ### Unfolding lemmas for the website upsert -/

theorem uwg_cons_pos (data : ExtractedPageData) (now : Nat) (w : WebsiteNode)
    (ws : List WebsiteNode) (h : w.url = data.url) :
    upsertWebsiteGo data now (w :: ws) =
      some (({ w with title := data.title, favicon := data.favicon, visitedAt := now }) :: ws, w.id) := by
  rw [upsertWebsiteGo, if_pos h]

theorem uwg_cons_neg (data : ExtractedPageData) (now : Nat) (w : WebsiteNode)
    (ws : List WebsiteNode) (h : ¬w.url = data.url) :
    upsertWebsiteGo data now (w :: ws) =
      (upsertWebsiteGo data now ws).map (fun p => (w :: p.1, p.2)) := by
  rw [upsertWebsiteGo, if_neg h]
  rcases upsertWebsiteGo data now ws with _ | ⟨ws', wid⟩ <;> rfl

theorem mergeKeywords_counter_le (data : ExtractedPageData) (g : GraphData) (ctr : Nat) :
    (upsertResult data g ctr).2.2 ≤ (mergeKeywordsResult data g ctr).2.2 := by
  simp only [mergeKeywordsResult]
  exact pk_counter_le _ _ _ _ _ _

theorem mergeMentions_counter_le (data : ExtractedPageData) (g : GraphData) (ctr : Nat) :
    (mergeKeywordsResult data g ctr).2.2 ≤ (mergeMentionsResult data g ctr).2.2 := by
  simp only [mergeMentionsResult]
  exact pm_counter_le _ _ _ _ _ _

theorem ups_single_pos (data : ExtractedPageData) (g : GraphData) (ctr : Nat)
    (w : WebsiteNode) (hws : g.websites = [w]) (hurl : w.url = data.url) :
    upsertResult data g ctr =
      ([({ w with title := data.title, favicon := data.favicon, visitedAt := ctr })],
        w.id, ctr) := by
  have h1 : upsertWebsiteGo data ctr g.websites =
      some ([({ w with title := data.title, favicon := data.favicon, visitedAt := ctr })], w.id) := by
    rw [hws]
    exact uwg_cons_pos data ctr w [] hurl
  simp only [upsertResult, h1]

theorem ups_single_neg (data : ExtractedPageData) (g : GraphData) (ctr : Nat)
    (w : WebsiteNode) (hws : g.websites = [w]) (hurl : ¬w.url = data.url) :
    upsertResult data g ctr =
      ([w, ⟨ctr, data.url, data.title, data.favicon, ctr, none⟩], ctr, ctr + 1) := by
  have h1 : upsertWebsiteGo data ctr g.websites = none := by
    rw [hws, uwg_cons_neg data ctr w [] hurl]
    rfl
  simp only [upsertResult, h1]
  rw [hws]
  rfl

theorem two_merges_shared_keyword (d1 d2 : ExtractedPageData) (t1 t2 : String)
    (ht1 : t1 ∈ d1.keywords) (ht2 : t2 ∈ d2.keywords)
    (hl1 : 3 ≤ t1.length) (hl2 : 3 ≤ t2.length)
    (hlow : strLower t1 = strLower t2) :
    ((runMerges [d1, d2] (emptyGraphData, 0)).1.keywords.filter
        (fun k => strLower k.text == strLower t1)).length = 1 ∧
    ∃ k ∈ (runMerges [d1, d2] (emptyGraphData, 0)).1.keywords,
      strLower k.text = strLower t1 ∧
      (∃ w1 ∈ (runMerges [d1, d2] (emptyGraphData, 0)).1.websites, w1.url = d1.url ∧
        ∃ e1 ∈ (runMerges [d1, d2] (emptyGraphData, 0)).1.websiteToKeywordEdges,
          e1.source = w1.id ∧ e1.target = k.id) ∧
      (∃ w2 ∈ (runMerges [d1, d2] (emptyGraphData, 0)).1.websites, w2.url = d2.url ∧
        ∃ e2 ∈ (runMerges [d1, d2] (emptyGraphData, 0)).1.websiteToKeywordEdges,
          e2.source = w2.id ∧ e2.target = k.id) := by
  -- merge 1 from the empty graph
  have h1shape := ppd_of_valid_keyword d1 emptyGraphData 0 t1 ht1 hl1
  have hup1 : upsertResult d1 emptyGraphData 0 =
      ([⟨0, d1.url, d1.title, d1.favicon, 0, none⟩], 0, 1) := rfl
  have hKR1 : mergeKeywordsResult d1 emptyGraphData 0 =
      processKeywords 0 [] d1.keywords [] [] 1 := rfl
  have hg1w : (processPageData d1 emptyGraphData 0).1.websites =
      [⟨0, d1.url, d1.title, d1.favicon, 0, none⟩] := by
    rw [h1shape, hup1]
  have hg1k : (processPageData d1 emptyGraphData 0).1.keywords =
      (processKeywords 0 [] d1.keywords [] [] 1).1 := by
    rw [h1shape, hKR1]
  have hg1e : (processPageData d1 emptyGraphData 0).1.websiteToKeywordEdges =
      (processKeywords 0 [] d1.keywords [] [] 1).2.1 := by
    rw [h1shape, hKR1]
  have hg1c : (processPageData d1 emptyGraphData 0).2 =
      (mergeMentionsResult d1 emptyGraphData 0).2.2 := by
    rw [h1shape]
  have huniq1 : keywordsUnique (processKeywords 0 [] d1.keywords [] [] 1).1 :=
    pk_unique 0 [] d1.keywords [] [] 1 List.Pairwise.nil
  have hallnone : ∀ k ∈ (processKeywords 0 [] d1.keywords [] [] 1).1,
      k.sourceWebsiteId = none := by
    intro k hk
    rcases pk_keyword_cases 0 [] d1.keywords [] [] 1 hk with h | h
    · exact absurd h (List.not_mem_nil k)
    · exact h.1
  have hallsrc : ∀ e ∈ (processKeywords 0 [] d1.keywords [] [] 1).2.1,
      e.source = 0 := by
    intro e he
    rcases pk_edge_cases 0 [] d1.keywords [] [] 1 he with h | h
    · exact absurd h (List.not_mem_nil e)
    · exact h.1
  obtain ⟨k1, hk1mem, hk1low, e1, he1mem, he1src, he1tgt⟩ :=
    pk_exists 0 [] d1.keywords [] [] 1 t1 ht1 hl1
  have hC1ge : 1 ≤ (mergeMentionsResult d1 emptyGraphData 0).2.2 := by
    have ha : (1 : Nat) ≤ (mergeKeywordsResult d1 emptyGraphData 0).2.2 := by
      have := mergeKeywords_counter_le d1 emptyGraphData 0
      rw [hup1] at this
      exact this
    exact le_trans ha (mergeMentions_counter_le d1 emptyGraphData 0)
  -- merge 2
  have hrun : runMerges [d1, d2] (emptyGraphData, 0) =
      processPageData d2 (processPageData d1 emptyGraphData 0).1
        (mergeMentionsResult d1 emptyGraphData 0).2.2 := by
    show runMerges [d2] (processPageData d1 emptyGraphData 0) = _
    rw [runMerges, runMerges, hg1c]
  have hfex : ∀ W : Nat,
      (processPageData d1 emptyGraphData 0).1.keywords.filter
        (fun k => k.sourceWebsiteId == some W) = [] := by
    intro W
    rw [hg1k]
    refine List.filter_eq_nil_iff.2 ?_
    intro k hk h
    rw [hallnone k hk] at h
    simp at h
  have hfkeep : ∀ W : Nat,
      (processPageData d1 emptyGraphData 0).1.keywords.filter
        (fun k => k.sourceWebsiteId != some W) =
        (processKeywords 0 [] d1.keywords [] [] 1).1 := by
    intro W
    rw [hg1k]
    refine List.filter_eq_self.2 ?_
    intro k hk
    rw [hallnone k hk]
    rfl
  rw [hrun]
  by_cases hurl : d2.url = d1.url
  · -- same url: the single website is updated in place, websiteId stays 0
    have hup2 : upsertResult d2 (processPageData d1 emptyGraphData 0).1
        (mergeMentionsResult d1 emptyGraphData 0).2.2 =
        ([⟨0, d1.url, d2.title, d2.favicon,
            (mergeMentionsResult d1 emptyGraphData 0).2.2, none⟩], 0,
          (mergeMentionsResult d1 emptyGraphData 0).2.2) :=
      ups_single_pos d2 _ _ _ hg1w hurl.symm
    have hW2 : mergedWebsiteId d2 (processPageData d1 emptyGraphData 0).1
        (mergeMentionsResult d1 emptyGraphData 0).2.2 = 0 := by
      rw [mergedWebsiteId, hup2]
    have hfe : (processPageData d1 emptyGraphData 0).1.websiteToKeywordEdges.filter
        (fun e => e.source != (0 : Nat)) = [] := by
      rw [hg1e]
      refine List.filter_eq_nil_iff.2 ?_
      intro e he h
      rw [hallsrc e he] at h
      simp at h
    have hKR2 : mergeKeywordsResult d2 (processPageData d1 emptyGraphData 0).1
        (mergeMentionsResult d1 emptyGraphData 0).2.2 =
        processKeywords 0 [] d2.keywords (processKeywords 0 [] d1.keywords [] [] 1).1
          [] (mergeMentionsResult d1 emptyGraphData 0).2.2 := by
      simp only [mergeKeywordsResult]
      rw [hW2, hfex 0, hfkeep 0, hfe, hup2]
    have h2shape := ppd_of_valid_keyword d2 (processPageData d1 emptyGraphData 0).1
      (mergeMentionsResult d1 emptyGraphData 0).2.2 t2 ht2 hl2
    rw [h2shape, hup2, hKR2]
    have huniq2 : keywordsUnique (processKeywords 0 [] d2.keywords
        (processKeywords 0 [] d1.keywords [] [] 1).1 []
        (mergeMentionsResult d1 emptyGraphData 0).2.2).1 :=
      pk_unique _ _ _ _ _ _ huniq1
    obtain ⟨k2, hk2mem, hk2low, e2, he2mem, he2src, he2tgt⟩ :=
      pk_exists 0 (List.nil) d2.keywords (processKeywords 0 [] d1.keywords [] [] 1).1
        [] (mergeMentionsResult d1 emptyGraphData 0).2.2 t2 ht2 hl2
    have hk2low1 : strLower k2.text = strLower t1 := by rw [hk2low, hlow]
    constructor
    · rw [unique_filter_singleton _ huniq2 hk2mem (strLower t1) hk2low1]
      rfl
    · refine ⟨k2, hk2mem, hk2low1, ?_, ?_⟩
      · exact ⟨⟨0, d1.url, d2.title, d2.favicon,
          (mergeMentionsResult d1 emptyGraphData 0).2.2, none⟩, by simp, rfl,
          e2, he2mem, he2src, he2tgt⟩
      · exact ⟨⟨0, d1.url, d2.title, d2.favicon,
          (mergeMentionsResult d1 emptyGraphData 0).2.2, none⟩, by simp, hurl.symm,
          e2, he2mem, he2src, he2tgt⟩
  · -- new url: a second website is created with the fresh id
    have hup2 : upsertResult d2 (processPageData d1 emptyGraphData 0).1
        (mergeMentionsResult d1 emptyGraphData 0).2.2 =
        ([⟨0, d1.url, d1.title, d1.favicon, 0, none⟩,
          ⟨(mergeMentionsResult d1 emptyGraphData 0).2.2, d2.url, d2.title, d2.favicon,
            (mergeMentionsResult d1 emptyGraphData 0).2.2, none⟩],
          (mergeMentionsResult d1 emptyGraphData 0).2.2,
          (mergeMentionsResult d1 emptyGraphData 0).2.2 + 1) := by
      refine ups_single_neg d2 _ _ _ hg1w ?_
      intro hcontra
      exact hurl hcontra.symm
    have hW2 : mergedWebsiteId d2 (processPageData d1 emptyGraphData 0).1
        (mergeMentionsResult d1 emptyGraphData 0).2.2 =
        (mergeMentionsResult d1 emptyGraphData 0).2.2 := by
      rw [mergedWebsiteId, hup2]
    have hfe : (processPageData d1 emptyGraphData 0).1.websiteToKeywordEdges.filter
        (fun e => e.source != (mergeMentionsResult d1 emptyGraphData 0).2.2) =
        (processKeywords 0 [] d1.keywords [] [] 1).2.1 := by
      rw [hg1e]
      refine List.filter_eq_self.2 ?_
      intro e he
      rw [hallsrc e he]
      exact bne_iff_ne.2 (by omega)
    have hKR2 : mergeKeywordsResult d2 (processPageData d1 emptyGraphData 0).1
        (mergeMentionsResult d1 emptyGraphData 0).2.2 =
        processKeywords (mergeMentionsResult d1 emptyGraphData 0).2.2 [] d2.keywords
          (processKeywords 0 [] d1.keywords [] [] 1).1
          (processKeywords 0 [] d1.keywords [] [] 1).2.1
          ((mergeMentionsResult d1 emptyGraphData 0).2.2 + 1) := by
      simp only [mergeKeywordsResult]
      rw [hW2, hfex _, hfkeep _, hfe, hup2]
    have h2shape := ppd_of_valid_keyword d2 (processPageData d1 emptyGraphData 0).1
      (mergeMentionsResult d1 emptyGraphData 0).2.2 t2 ht2 hl2
    rw [h2shape, hup2, hKR2]
    have huniq2 : keywordsUnique (processKeywords
        (mergeMentionsResult d1 emptyGraphData 0).2.2 [] d2.keywords
        (processKeywords 0 [] d1.keywords [] [] 1).1
        (processKeywords 0 [] d1.keywords [] [] 1).2.1
        ((mergeMentionsResult d1 emptyGraphData 0).2.2 + 1)).1 :=
      pk_unique _ _ _ _ _ _ huniq1
    obtain ⟨k2, hk2mem, hk2low, e2, he2mem, he2src, he2tgt⟩ :=
      pk_exists (mergeMentionsResult d1 emptyGraphData 0).2.2 (List.nil) d2.keywords
        (processKeywords 0 [] d1.keywords [] [] 1).1
        (processKeywords 0 [] d1.keywords [] [] 1).2.1
        ((mergeMentionsResult d1 emptyGraphData 0).2.2 + 1) t2 ht2 hl2
    have hk1mem2 : k1 ∈ (processKeywords
        (mergeMentionsResult d1 emptyGraphData 0).2.2 [] d2.keywords
        (processKeywords 0 [] d1.keywords [] [] 1).1
        (processKeywords 0 [] d1.keywords [] [] 1).2.1
        ((mergeMentionsResult d1 emptyGraphData 0).2.2 + 1)).1 :=
      pk_mem_keywords _ _ _ _ _ _ hk1mem
    have he1mem2 : e1 ∈ (processKeywords
        (mergeMentionsResult d1 emptyGraphData 0).2.2 [] d2.keywords
        (processKeywords 0 [] d1.keywords [] [] 1).1
        (processKeywords 0 [] d1.keywords [] [] 1).2.1
        ((mergeMentionsResult d1 emptyGraphData 0).2.2 + 1)).2.1 :=
      pk_mem_edges _ _ _ _ _ _ he1mem
    have hk2low1 : strLower k2.text = strLower t1 := by rw [hk2low, hlow]
    have hkeq : k1 = k2 :=
      unique_mem_eq _ huniq2 hk1mem2 hk2mem (by rw [hk1low, hk2low1])
    constructor
    · rw [unique_filter_singleton _ huniq2 hk2mem (strLower t1) hk2low1]
      rfl
    · refine ⟨k2, hk2mem, hk2low1, ?_, ?_⟩
      · refine ⟨⟨0, d1.url, d1.title, d1.favicon, 0, none⟩, by simp, rfl,
          e1, he1mem2, he1src, ?_⟩
        rw [← hkeq]
        exact he1tgt
      · exact ⟨⟨(mergeMentionsResult d1 emptyGraphData 0).2.2, d2.url, d2.title,
          d2.favicon, (mergeMentionsResult d1 emptyGraphData 0).2.2, none⟩,
          by simp, rfl, e2, he2mem, he2src, he2tgt⟩

/-! ### Claim C1: global keyword uniqueness -/

/-- C1: after any sequence of merges starting from the empty graph, no two
keyword nodes share a case-insensitive text value; and for any pair of
merges (possibly for different website urls) whose keyword lists contain
strings equal up to lowercasing, the resulting graph contains exactly one
keyword node with that lowercased text, and that single node is the target
of website→keyword edges from both merged websites. -/
theorem keyword_global_uniqueness :
    (∀ ds : List ExtractedPageData,
      keywordsUnique (runMerges ds (emptyGraphData, 0)).1.keywords) ∧
    (∀ (d1 d2 : ExtractedPageData) (t1 t2 : String),
      t1 ∈ d1.keywords → t2 ∈ d2.keywords → 3 ≤ t1.length → 3 ≤ t2.length →
      strLower t1 = strLower t2 →
      ((runMerges [d1, d2] (emptyGraphData, 0)).1.keywords.filter
          (fun k => strLower k.text == strLower t1)).length = 1 ∧
      ∃ k ∈ (runMerges [d1, d2] (emptyGraphData, 0)).1.keywords,
        strLower k.text = strLower t1 ∧
        (∃ w1 ∈ (runMerges [d1, d2] (emptyGraphData, 0)).1.websites, w1.url = d1.url ∧
          ∃ e1 ∈ (runMerges [d1, d2] (emptyGraphData, 0)).1.websiteToKeywordEdges,
            e1.source = w1.id ∧ e1.target = k.id) ∧
        (∃ w2 ∈ (runMerges [d1, d2] (emptyGraphData, 0)).1.websites, w2.url = d2.url ∧
          ∃ e2 ∈ (runMerges [d1, d2] (emptyGraphData, 0)).1.websiteToKeywordEdges,
            e2.source = w2.id ∧ e2.target = k.id)) := by
  constructor
  · have hrun : ∀ (ds : List ExtractedPageData) (s : GraphData × Nat),
        keywordsUnique s.1.keywords → keywordsUnique (runMerges ds s).1.keywords := by
      intro ds
      induction ds with
      | nil => exact fun s h => h
      | cons d ds ih => exact fun s h => ih _ (merge_preserves_unique d s.1 s.2 h)
    intro ds
    exact hrun ds (emptyGraphData, 0) List.Pairwise.nil
  · exact fun d1 d2 t1 t2 ht1 ht2 hl1 hl2 hlow =>
      two_merges_shared_keyword d1 d2 t1 t2 ht1 ht2 hl1 hl2 hlow

/-- Witness for C1: the pair part instantiated at two concrete merges for
different urls sharing the keyword `React`/`react` up to case. -/
theorem keyword_global_uniqueness_witness :
    (("React") ∈ (⟨some ("u1"), some ("t1"), none, ["React"], []⟩ :
        ExtractedPageData).keywords ∧
      ("react") ∈ (⟨some ("u2"), some ("t2"), none, ["react"], []⟩ :
        ExtractedPageData).keywords ∧
      3 ≤ ("React").length ∧ 3 ≤ ("react").length ∧
      strLower ("React") = strLower ("react")) ∧
    (((runMerges [⟨some ("u1"), some ("t1"), none, ["React"], []⟩,
          ⟨some ("u2"), some ("t2"), none, ["react"], []⟩]
          (emptyGraphData, 0)).1.keywords.filter
        (fun k => strLower k.text == strLower ("React"))).length = 1 ∧
      ∃ k ∈ (runMerges [⟨some ("u1"), some ("t1"), none, ["React"], []⟩,
          ⟨some ("u2"), some ("t2"), none, ["react"], []⟩]
          (emptyGraphData, 0)).1.keywords,
        strLower k.text = strLower ("React") ∧
        (∃ w1 ∈ (runMerges [⟨some ("u1"), some ("t1"), none, ["React"], []⟩,
            ⟨some ("u2"), some ("t2"), none, ["react"], []⟩]
            (emptyGraphData, 0)).1.websites,
          w1.url = (⟨some ("u1"), some ("t1"), none, ["React"], []⟩ :
            ExtractedPageData).url ∧
          ∃ e1 ∈ (runMerges [⟨some ("u1"), some ("t1"), none, ["React"], []⟩,
              ⟨some ("u2"), some ("t2"), none, ["react"], []⟩]
              (emptyGraphData, 0)).1.websiteToKeywordEdges,
            e1.source = w1.id ∧ e1.target = k.id) ∧
        (∃ w2 ∈ (runMerges [⟨some ("u1"), some ("t1"), none, ["React"], []⟩,
            ⟨some ("u2"), some ("t2"), none, ["react"], []⟩]
            (emptyGraphData, 0)).1.websites,
          w2.url = (⟨some ("u2"), some ("t2"), none, ["react"], []⟩ :
            ExtractedPageData).url ∧
          ∃ e2 ∈ (runMerges [⟨some ("u1"), some ("t1"), none, ["React"], []⟩,
              ⟨some ("u2"), some ("t2"), none, ["react"], []⟩]
              (emptyGraphData, 0)).1.websiteToKeywordEdges,
            e2.source = w2.id ∧ e2.target = k.id)) :=
  ⟨⟨by decide, by decide, by decide, by decide, by decide⟩,
    keyword_global_uniqueness.2 ⟨some ("u1"), some ("t1"), none, ["React"], []⟩
      ⟨some ("u2"), some ("t2"), none, ["react"], []⟩ ("React") ("react")
      (by decide) (by decide) (by decide) (by decide) (by decide)⟩

/-! ### Claim C3: position preservation -/

/-- C3: if the graph (whose keyword texts are case-insensitively unique, as
every graph built by merges is) contains a keyword node whose text equals,
up to case, a valid keyword re-emitted by the merged page, then after the
merge the graph still contains a keyword node with that text carrying the
exact same stored position; likewise every website node (in particular a
re-merged one) keeps its id and its `lastPosition`. -/
theorem position_preservation (data : ExtractedPageData) (g : GraphData) (ctr : Nat)
    (hu : keywordsUnique g.keywords) :
    (∀ k ∈ g.keywords, ∀ t ∈ data.keywords, 3 ≤ t.length →
      strLower k.text = strLower t →
      ∃ k' ∈ (processPageData data g ctr).1.keywords,
        strLower k'.text = strLower k.text ∧ k'.position = k.position) ∧
    (∀ w ∈ g.websites, ∃ w' ∈ (processPageData data g ctr).1.websites,
      w'.id = w.id ∧ w'.url = w.url ∧ w'.lastPosition = w.lastPosition) := by
  constructor
  · intro k hk t ht hlen hktext
    have hshape := ppd_of_valid_keyword data g ctr t ht hlen
    by_cases howner : k.sourceWebsiteId = some (mergedWebsiteId data g ctr)
    · -- the node is removed and recreated from the saved-positions dictionary
      have hkex : k ∈ g.keywords.filter
          (fun x => x.sourceWebsiteId == some (mergedWebsiteId data g ctr)) :=
        List.mem_filter.2 ⟨hk, by rw [howner]; exact beq_self_eq_true _⟩
      have huex : keywordsUnique (g.keywords.filter
          (fun x => x.sourceWebsiteId == some (mergedWebsiteId data g ctr))) :=
        List.Pairwise.sublist (List.filter_sublist g.keywords) hu
      have hfiltereq : (g.keywords.filter
          (fun x => x.sourceWebsiteId == some (mergedWebsiteId data g ctr))).filter
            (fun x => strLower x.text == strLower t) = [k] :=
        unique_filter_singleton _ huex hkex (strLower t) hktext
      have hsaved : savedKeywordPosition
          (g.keywords.filter
            (fun x => x.sourceWebsiteId == some (mergedWebsiteId data g ctr)))
          (strLower t) = k.position := by
        simp [savedKeywordPosition, hfiltereq]
      have hpos0 : ∀ k2 ∈ g.keywords.filter
          (fun x => x.sourceWebsiteId != some (mergedWebsiteId data g ctr)),
          strLower k2.text = strLower t →
          k2.position = savedKeywordPosition
            (g.keywords.filter
              (fun x => x.sourceWebsiteId == some (mergedWebsiteId data g ctr)))
            (strLower t) := by
        intro k2 hk2 hk2t
        exfalso
        obtain ⟨hk2g, hk2ne⟩ := List.mem_filter.1 hk2
        have : k2 = k := unique_mem_eq g.keywords hu hk2g hk
          (by rw [hk2t, hktext])
        subst this
        rw [howner] at hk2ne
        simp at hk2ne
      have hex : ∃ k' ∈ (mergeKeywordsResult data g ctr).1,
          strLower k'.text = strLower t ∧
          k'.position = savedKeywordPosition
            (g.keywords.filter
              (fun x => x.sourceWebsiteId == some (mergedWebsiteId data g ctr)))
            (strLower t) :=
        pk_pos _ _ data.keywords _ _ _ t ht hlen hpos0
      obtain ⟨k', hk'mem, hk't, hk'pos⟩ := hex
      refine ⟨k', ?_, by rw [hk't, hktext], by rw [hk'pos, hsaved]⟩
      rw [hshape]
      exact hk'mem
    · -- the node is untouched by the purge and survives as-is
      have hk1 : k ∈ g.keywords.filter
          (fun x => x.sourceWebsiteId != some (mergedWebsiteId data g ctr)) :=
        List.mem_filter.2 ⟨hk, bne_iff_ne.2 howner⟩
      have hk2 : k ∈ (mergeKeywordsResult data g ctr).1 :=
        pk_mem_keywords _ _ _ _ _ _ hk1
      refine ⟨k, ?_, rfl, rfl⟩
      rw [hshape]
      exact hk2
  · intro w hw
    obtain ⟨hpre, -⟩ := upsertResult_preserves data g ctr
    obtain ⟨w', hw', hprops⟩ := hpre w hw
    refine ⟨w', ?_, hprops⟩
    rw [merge_websites]
    exact hw'

/-- Witness for C3: a keyword node stored with position `{x:10,y:20}` keeps
exactly that position across a re-merge that re-emits its text in different
case, and the website keeps its `lastPosition`. -/
theorem position_preservation_witness :
    keywordsUnique (⟨[⟨0, some ("u"), some ("t"), none, 0, some ⟨1, 2⟩⟩],
      [⟨1, "React", none, some ⟨10, 20⟩⟩], [], [⟨2, 0, 1⟩], []⟩ :
        GraphData).keywords ∧
    (⟨1, "React", none, some ⟨10, 20⟩⟩ : KeywordNode) ∈
      (⟨[⟨0, some ("u"), some ("t"), none, 0, some ⟨1, 2⟩⟩],
        [⟨1, "React", none, some ⟨10, 20⟩⟩], [], [⟨2, 0, 1⟩], []⟩ :
          GraphData).keywords ∧
    ("REACT") ∈ (⟨some ("u"), some ("t2"), none, ["REACT"], []⟩ :
      ExtractedPageData).keywords ∧
    3 ≤ ("REACT").length ∧
    strLower (("React")) = strLower (("REACT")) ∧
    (∃ k' ∈ (processPageData ⟨some ("u"), some ("t2"), none, ["REACT"], []⟩
        ⟨[⟨0, some ("u"), some ("t"), none, 0, some ⟨1, 2⟩⟩],
          [⟨1, "React", none, some ⟨10, 20⟩⟩], [], [⟨2, 0, 1⟩], []⟩ 5).1.keywords,
      strLower k'.text = strLower ((⟨1, "React", none, some ⟨10, 20⟩⟩ :
        KeywordNode).text) ∧
      k'.position = (⟨1, "React", none, some ⟨10, 20⟩⟩ : KeywordNode).position) ∧
    (∃ w' ∈ (processPageData ⟨some ("u"), some ("t2"), none, ["REACT"], []⟩
        ⟨[⟨0, some ("u"), some ("t"), none, 0, some ⟨1, 2⟩⟩],
          [⟨1, "React", none, some ⟨10, 20⟩⟩], [], [⟨2, 0, 1⟩], []⟩ 5).1.websites,
      w'.id = (⟨0, some ("u"), some ("t"), none, 0, some ⟨1, 2⟩⟩ :
        WebsiteNode).id ∧
      w'.url = (⟨0, some ("u"), some ("t"), none, 0, some ⟨1, 2⟩⟩ :
        WebsiteNode).url ∧
      w'.lastPosition = (⟨0, some ("u"), some ("t"), none, 0, some ⟨1, 2⟩⟩ :
        WebsiteNode).lastPosition) :=
  ⟨by decide, by decide, by decide, by decide, by decide,
    (position_preservation ⟨some ("u"), some ("t2"), none, ["REACT"], []⟩
      ⟨[⟨0, some ("u"), some ("t"), none, 0, some ⟨1, 2⟩⟩],
        [⟨1, "React", none, some ⟨10, 20⟩⟩], [], [⟨2, 0, 1⟩], []⟩ 5
      (by decide)).1 ⟨1, "React", none, some ⟨10, 20⟩⟩ (by decide) ("REACT")
      (by decide) (by decide) (by decide),
    (position_preservation ⟨some ("u"), some ("t2"), none, ["REACT"], []⟩
      ⟨[⟨0, some ("u"), some ("t"), none, 0, some ⟨1, 2⟩⟩],
        [⟨1, "React", none, some ⟨10, 20⟩⟩], [], [⟨2, 0, 1⟩], []⟩ 5
      (by decide)).2 ⟨0, some ("u"), some ("t"), none, 0, some ⟨1, 2⟩⟩ (by decide)⟩

/-! ### Claim C2: edge replacement, not accumulation -/

theorem ups_counter_le (data : ExtractedPageData) (g : GraphData) (ctr : Nat) :
    ctr ≤ (upsertResult data g ctr).2.2 := by
  rw [upsertResult]
  rcases upsertWebsiteGo data ctr g.websites with _ | p <;> simp

theorem ctr_le_merge (data : ExtractedPageData) (g : GraphData) (ctr : Nat) :
    ctr ≤ (mergeMentionsResult data g ctr).2.2 :=
  le_trans (ups_counter_le data g ctr)
    (le_trans (mergeKeywords_counter_le data g ctr) (mergeMentions_counter_le data g ctr))

/-- C2 (amended): after a merge for the website stored under id `W`, every
pre-existing edge with source `W` (keyword or mention edge) is gone, and
every edge with source `W` in the result was created during this call (its
id was drawn from the current counter) — these are exactly the edges
generated from the call's valid keywords and mentions, except that when the
call yields no keyword edge and the graph ends with no keyword node, the
debug fallback adds one synthetic edge (see the counterexample). In the
claim's concrete scenario, merging `[alpha, beta]` and then re-merging the
same url with `[gamma]` leaves exactly one outgoing keyword edge, to the
`gamma` node. -/
theorem edge_replacement :
    (∀ (data : ExtractedPageData) (g : GraphData) (ctr : Nat),
      BoundedGraph g ctr →
      (∀ e ∈ g.websiteToKeywordEdges, e.source = mergedWebsiteId data g ctr →
        e ∉ (processPageData data g ctr).1.websiteToKeywordEdges) ∧
      (∀ e ∈ g.websiteToMentionEdges, e.source = mergedWebsiteId data g ctr →
        e ∉ (processPageData data g ctr).1.websiteToMentionEdges) ∧
      (∀ e ∈ (processPageData data g ctr).1.websiteToKeywordEdges,
        e.source = mergedWebsiteId data g ctr → ctr ≤ e.id) ∧
      (∀ e ∈ (processPageData data g ctr).1.websiteToMentionEdges,
        e.source = mergedWebsiteId data g ctr → ctr ≤ e.id)) ∧
    ((runMerges [⟨some ("u"), some ("t"), none, ["alpha", "beta"], []⟩,
        ⟨some ("u"), some ("t"), none, ["gamma"], []⟩]
        (emptyGraphData, 0)).1.websiteToKeywordEdges = [⟨6, 0, 5⟩] ∧
      (⟨5, "gamma", none, none⟩ : KeywordNode) ∈
        (runMerges [⟨some ("u"), some ("t"), none, ["alpha", "beta"], []⟩,
          ⟨some ("u"), some ("t"), none, ["gamma"], []⟩]
          (emptyGraphData, 0)).1.keywords ∧
      (⟨2, 0, 1⟩ : GraphEdge) ∉
        (runMerges [⟨some ("u"), some ("t"), none, ["alpha", "beta"], []⟩,
          ⟨some ("u"), some ("t"), none, ["gamma"], []⟩]
          (emptyGraphData, 0)).1.websiteToKeywordEdges) := by
  constructor
  · intro data g ctr hB
    have hctr1 : ctr ≤ (upsertResult data g ctr).2.2 := ups_counter_le data g ctr
    have hctr2 : ctr ≤ (mergeKeywordsResult data g ctr).2.2 :=
      le_trans hctr1 (mergeKeywords_counter_le data g ctr)
    have hkmem : ∀ e ∈ (mergeKeywordsResult data g ctr).2.1,
        e.source = mergedWebsiteId data g ctr →
        (upsertResult data g ctr).2.2 ≤ e.id := by
      intro e he hsrc
      have hcases : e ∈ g.websiteToKeywordEdges.filter
          (fun x => x.source != mergedWebsiteId data g ctr) ∨
          (e.source = mergedWebsiteId data g ctr ∧
            (upsertResult data g ctr).2.2 ≤ e.id ∧
            ∃ k ∈ (mergeKeywordsResult data g ctr).1, k.id = e.target) :=
        pk_edge_cases _ _ _ _ _ _ he
      rcases hcases with h | h
      · exfalso
        obtain ⟨-, hbne⟩ := List.mem_filter.1 h
        exact bne_iff_ne.1 hbne hsrc
      · exact h.2.1
    have hmmem : ∀ e ∈ (mergeMentionsResult data g ctr).2.1,
        e.source = mergedWebsiteId data g ctr →
        (mergeKeywordsResult data g ctr).2.2 ≤ e.id := by
      intro e he hsrc
      have hcases : e ∈ g.websiteToMentionEdges.filter
          (fun x => x.source != mergedWebsiteId data g ctr) ∨
          (e.source = mergedWebsiteId data g ctr ∧
            (mergeKeywordsResult data g ctr).2.2 ≤ e.id ∧
            ∃ m ∈ (mergeMentionsResult data g ctr).1,
              m.id = e.target ∧ m.sourceWebsiteId = mergedWebsiteId data g ctr) :=
        pm_edge_cases _ _ _ _ _ _ he
      rcases hcases with h | h
      · exfalso
        obtain ⟨-, hbne⟩ := List.mem_filter.1 h
        exact bne_iff_ne.1 hbne hsrc
      · exact h.2.1
    have hknew : ∀ e ∈ (processPageData data g ctr).1.websiteToKeywordEdges,
        e.source = mergedWebsiteId data g ctr → ctr ≤ e.id := by
      intro e he hsrc
      rcases ppd_shape data g ctr with h | ⟨w0, -, -, -, h⟩
      · rw [h] at he
        exact le_trans hctr1 (hkmem e he hsrc)
      · rw [h] at he
        simp only [List.mem_singleton] at he
        subst he
        have := ctr_le_merge data g ctr
        simp only
        omega
    have hmnew : ∀ e ∈ (processPageData data g ctr).1.websiteToMentionEdges,
        e.source = mergedWebsiteId data g ctr → ctr ≤ e.id := by
      intro e he hsrc
      rw [merge_mention_edges] at he
      exact le_trans hctr2 (hmmem e he hsrc)
    refine ⟨?_, ?_, hknew, hmnew⟩
    · intro e he hsrc hecontra
      have hlt : e.id < ctr := hB.2.2.2.1 e he
      have := hknew e hecontra hsrc
      omega
    · intro e he hsrc hecontra
      have hlt : e.id < ctr := hB.2.2.2.2 e he
      have := hmnew e hecontra hsrc
      omega
  · exact ⟨by decide, by decide, by decide⟩

/-- C2 counterexample: merging a page with an empty keyword and mention list
into the empty graph should, per the claim, leave the website with no
outgoing edges at all, but the debug fallback persists one keyword edge
whose source is the merged website. -/
theorem edge_replacement_counterexample :
    ((processPageData ⟨some ("u"), some ("t"), none, [], []⟩ emptyGraphData
        0).1.websiteToKeywordEdges.filter
      (fun e => e.source == mergedWebsiteId ⟨some ("u"), some ("t"), none, [], []⟩
        emptyGraphData 0)).length = 1 := by
  decide

/-- Witness for C2: a concrete pre-existing keyword edge of the re-merged
website is absent from the merged graph. -/
theorem edge_replacement_witness :
    BoundedGraph ⟨[⟨0, some ("u"), some ("t"), none, 0, none⟩],
      [⟨1, "alpha", none, none⟩], [], [⟨2, 0, 1⟩], []⟩ 3 ∧
    (⟨2, 0, 1⟩ : GraphEdge) ∈ (⟨[⟨0, some ("u"), some ("t"), none, 0, none⟩],
      [⟨1, "alpha", none, none⟩], [], [⟨2, 0, 1⟩], []⟩ :
        GraphData).websiteToKeywordEdges ∧
    (⟨2, 0, 1⟩ : GraphEdge).source =
      mergedWebsiteId ⟨some ("u"), some ("t2"), none, ["gamma"], []⟩
        ⟨[⟨0, some ("u"), some ("t"), none, 0, none⟩],
          [⟨1, "alpha", none, none⟩], [], [⟨2, 0, 1⟩], []⟩ 3 ∧
    (⟨2, 0, 1⟩ : GraphEdge) ∉
      (processPageData ⟨some ("u"), some ("t2"), none, ["gamma"], []⟩
        ⟨[⟨0, some ("u"), some ("t"), none, 0, none⟩],
          [⟨1, "alpha", none, none⟩], [], [⟨2, 0, 1⟩], []⟩
        3).1.websiteToKeywordEdges :=
  ⟨by decide, by decide, by decide,
    (edge_replacement.1 ⟨some ("u"), some ("t2"), none, ["gamma"], []⟩
      ⟨[⟨0, some ("u"), some ("t"), none, 0, none⟩],
        [⟨1, "alpha", none, none⟩], [], [⟨2, 0, 1⟩], []⟩ 3 (by decide)).1
      ⟨2, 0, 1⟩ (by decide) (by decide)⟩

/-! ### Claim C4: no dangling edges -/

theorem merge_preserves_sources (data : ExtractedPageData) (g : GraphData) (ctr : Nat)
    (h : EdgeSourcesValid g) : EdgeSourcesValid (processPageData data g ctr).1 := by
  obtain ⟨hpre, wm, hwm, hwmid, -⟩ := upsertResult_preserves data g ctr
  have hsrc : ∀ s : Nat, (∃ w ∈ g.websites, w.id = s) ∨ s = mergedWebsiteId data g ctr →
      ∃ w ∈ (processPageData data g ctr).1.websites, w.id = s := by
    intro s hs
    rw [merge_websites]
    rcases hs with ⟨w, hw, hid⟩ | rfl
    · obtain ⟨w', hw', hid', -⟩ := hpre w hw
      exact ⟨w', hw', by rw [hid', hid]⟩
    · exact ⟨wm, hwm, hwmid⟩
  refine ⟨?_, ?_, ?_⟩
  · -- keyword-edge sources
    intro e he
    rcases ppd_shape data g ctr with hsh | ⟨w0, hw0, -, -, hsh⟩
    · rw [hsh] at he
      rcases pk_edge_cases _ _ _ _ _ _ he with hold | hnew
      · obtain ⟨hog, -⟩ := List.mem_filter.1 hold
        exact hsrc e.source (Or.inl (h.1 e hog))
      · exact hsrc e.source (Or.inr hnew.1)
    · rw [hsh] at he
      simp only [List.mem_singleton] at he
      subst he
      rw [merge_websites]
      exact ⟨w0, List.mem_of_mem_head? hw0, rfl⟩
  · -- mention-edge sources
    intro e he
    rw [merge_mention_edges] at he
    rcases pm_edge_cases _ _ _ _ _ _ he with hold | hnew
    · obtain ⟨hog, -⟩ := List.mem_filter.1 hold
      exact hsrc e.source (Or.inl (h.2.1 e hog))
    · exact hsrc e.source (Or.inr hnew.1)
  · -- mention-edge targets with ownership
    intro e he
    rw [merge_mentions]
    rw [merge_mention_edges] at he
    rcases pm_edge_cases _ _ _ _ _ _ he with hold | hnew
    · obtain ⟨hog, hbne⟩ := List.mem_filter.1 hold
      obtain ⟨m, hm, hmid, hmown⟩ := h.2.2 e hog
      have hmkeep : m ∈ g.mentions.filter
          (fun x => x.sourceWebsiteId != mergedWebsiteId data g ctr) :=
        List.mem_filter.2 ⟨hm, by rw [hmown]; exact hbne⟩
      exact ⟨m, pm_mem_mentions _ _ _ _ _ _ hmkeep, hmid, hmown⟩
    · obtain ⟨hesrc, -, m, hm, hmid, hmown⟩ := hnew
      exact ⟨m, hm, hmid, by rw [hmown, hesrc]⟩

theorem merge_preserves_keyword_targets (data : ExtractedPageData) (g : GraphData)
    (ctr : Nat) (t : String) (ht : t ∈ data.keywords) (hlen : 3 ≤ t.length)
    (h : KeywordTargetsValid g) :
    KeywordTargetsValid (processPageData data g ctr).1 := by
  have hsh := ppd_of_valid_keyword data g ctr t ht hlen
  constructor
  · intro k hk
    rw [hsh] at hk
    rcases pk_keyword_cases _ _ _ _ _ _ hk with hold | hnew
    · exact h.1 k (List.mem_filter.1 hold).1
    · exact hnew.1
  · intro e he
    rw [hsh] at he ⊢
    rcases pk_edge_cases _ _ _ _ _ _ he with hold | hnew
    · obtain ⟨hog, -⟩ := List.mem_filter.1 hold
      obtain ⟨k, hk, hkid⟩ := h.2 e hog
      have hkkeep : k ∈ g.keywords.filter
          (fun x => x.sourceWebsiteId != some (mergedWebsiteId data g ctr)) :=
        List.mem_filter.2 ⟨hk, by rw [h.1 k hk]; rfl⟩
      exact ⟨k, pk_mem_keywords _ _ _ _ _ _ hkkeep, hkid⟩
    · obtain ⟨-, -, k, hk, hkid⟩ := hnew
      exact ⟨k, hk, hkid⟩

/-- C4 (amended): after any sequence of merges from the empty graph, every
edge's source is the id of an existing website node and every mention edge's
target is the id of an existing mention node; keyword-edge targets are also
ids of existing keyword nodes provided each merged page carries at least one
valid (≥ 3 characters) keyword — a condition that keeps the debug
test-keyword fallback from firing, which is what makes the unconditional
claim false (see the counterexample). -/
theorem no_dangling_edges :
    (∀ ds : List ExtractedPageData,
      (∀ e ∈ (runMerges ds (emptyGraphData, 0)).1.websiteToKeywordEdges,
        ∃ w ∈ (runMerges ds (emptyGraphData, 0)).1.websites, w.id = e.source) ∧
      (∀ e ∈ (runMerges ds (emptyGraphData, 0)).1.websiteToMentionEdges,
        ∃ w ∈ (runMerges ds (emptyGraphData, 0)).1.websites, w.id = e.source) ∧
      (∀ e ∈ (runMerges ds (emptyGraphData, 0)).1.websiteToMentionEdges,
        ∃ m ∈ (runMerges ds (emptyGraphData, 0)).1.mentions, m.id = e.target)) ∧
    (∀ ds : List ExtractedPageData, (∀ d ∈ ds, ∃ t ∈ d.keywords, 3 ≤ t.length) →
      ∀ e ∈ (runMerges ds (emptyGraphData, 0)).1.websiteToKeywordEdges,
        ∃ k ∈ (runMerges ds (emptyGraphData, 0)).1.keywords, k.id = e.target) := by
  constructor
  · have hrun : ∀ (ds : List ExtractedPageData) (s : GraphData × Nat),
        EdgeSourcesValid s.1 → EdgeSourcesValid (runMerges ds s).1 := by
      intro ds
      induction ds with
      | nil => exact fun s h => h
      | cons d ds ih => exact fun s h => ih _ (merge_preserves_sources d s.1 s.2 h)
    intro ds
    have h := hrun ds (emptyGraphData, 0)
      ⟨fun e he => absurd he (List.not_mem_nil e),
        fun e he => absurd he (List.not_mem_nil e),
        fun e he => absurd he (List.not_mem_nil e)⟩
    exact ⟨h.1, h.2.1, fun e he => by
      obtain ⟨m, hm, hmid, -⟩ := h.2.2 e he
      exact ⟨m, hm, hmid⟩⟩
  · have hrun : ∀ (ds : List ExtractedPageData) (s : GraphData × Nat),
        (∀ d ∈ ds, ∃ t ∈ d.keywords, 3 ≤ t.length) →
        KeywordTargetsValid s.1 → KeywordTargetsValid (runMerges ds s).1 := by
      intro ds
      induction ds with
      | nil => exact fun s _ h => h
      | cons d ds ih =>
        intro s hvalid h
        obtain ⟨t, ht, hlen⟩ := hvalid d (List.mem_cons_self d ds)
        exact ih _ (fun d2 hd2 => hvalid d2 (List.mem_cons_of_mem d hd2))
          (merge_preserves_keyword_targets d s.1 s.2 t ht hlen h)
    intro ds hvalid
    exact (hrun ds (emptyGraphData, 0) hvalid
      ⟨fun k hk => absurd hk (List.not_mem_nil k),
        fun e he => absurd he (List.not_mem_nil e)⟩).2

/-- C4 counterexample: a page with no keywords creates the fallback test
keyword owned by website `u1`; a second website links to that same keyword
node by text; re-merging `u1` then removes the test keyword while the second
website's edge to it survives — a dangling keyword edge is persisted. -/
theorem no_dangling_counterexample :
    ((runMerges [⟨some ("u1"), some ("t1"), none, [], []⟩,
        ⟨some ("u2"), some ("t2"), none, ["test keyword"], []⟩,
        ⟨some ("u1"), some ("t1b"), none, ["xyzzy"], []⟩]
        (emptyGraphData, 0)).1.websiteToKeywordEdges.any
      (fun e => (runMerges [⟨some ("u1"), some ("t1"), none, [], []⟩,
          ⟨some ("u2"), some ("t2"), none, ["test keyword"], []⟩,
          ⟨some ("u1"), some ("t1b"), none, ["xyzzy"], []⟩]
          (emptyGraphData, 0)).1.keywords.all
        (fun k => k.id != e.target))) = true := by
  decide

/-- Witness for C4: the valid-keyword part instantiated at one concrete
merge and its keyword edge. -/
theorem no_dangling_edges_witness :
    (∀ d ∈ [(⟨some ("u"), some ("t"), none, ["abc"], []⟩ : ExtractedPageData)],
      ∃ t ∈ d.keywords, 3 ≤ t.length) ∧
    (⟨2, 0, 1⟩ : GraphEdge) ∈
      (runMerges [⟨some ("u"), some ("t"), none, ["abc"], []⟩]
        (emptyGraphData, 0)).1.websiteToKeywordEdges ∧
    ∃ k ∈ (runMerges [⟨some ("u"), some ("t"), none, ["abc"], []⟩]
        (emptyGraphData, 0)).1.keywords, k.id = (⟨2, 0, 1⟩ : GraphEdge).target :=
  ⟨by decide, by decide,
    no_dangling_edges.2 [⟨some ("u"), some ("t"), none, ["abc"], []⟩]
      (by decide) ⟨2, 0, 1⟩ (by decide)⟩

/-! ### Claim C6: mention identity -/

/-- C6 (amended): for each incoming mention with text of length ≥ 2 and a
non-empty context, the merge stores a freshly created mention node (its id
is new — distinct from every pre-existing mention id) carrying the mention's
text, context and the merged website's id, and it carries over the position
of this website's previous mention with the same case-insensitive text when
one exists. The merge does not look up and reuse the existing node, and
mentions with a single-character text are dropped (see the counterexample). -/
theorem mention_fresh_node (data : ExtractedPageData) (g : GraphData) (ctr : Nat) :
    ∀ md ∈ data.mentions, 2 ≤ md.text.length → md.context ≠ "" →
      ∃ m ∈ (processPageData data g ctr).1.mentions,
        m.text = md.text ∧ m.context = md.context ∧
        m.sourceWebsiteId = mergedWebsiteId data g ctr ∧
        m.position = ((g.mentions.filter
          (fun x => x.sourceWebsiteId == mergedWebsiteId data g ctr)).find?
            (fun x => strLower x.text == strLower md.text)).bind
          (fun x => x.position) ∧
        (BoundedGraph g ctr → ∀ m0 ∈ g.mentions, m0.id ≠ m.id) := by
  intro md hmd hlen hctx
  have hex : ∃ m ∈ (mergeMentionsResult data g ctr).1, m.text = md.text ∧
      m.context = md.context ∧ m.sourceWebsiteId = mergedWebsiteId data g ctr ∧
      (mergeKeywordsResult data g ctr).2.2 ≤ m.id ∧
      m.position = ((g.mentions.filter
        (fun x => x.sourceWebsiteId == mergedWebsiteId data g ctr)).find?
          (fun x => strLower x.text == strLower md.text)).bind
        (fun x => x.position) :=
    pm_exists _ _ data.mentions _ _ _ md hmd hlen hctx
  obtain ⟨m, hm, htext, hcontext, howner, hid, hpos⟩ := hex
  refine ⟨m, ?_, htext, hcontext, howner, hpos, ?_⟩
  · rw [merge_mentions]
    exact hm
  · intro hB m0 hm0
    have h1 : m0.id < ctr := hB.2.2.1 m0 hm0
    have h2 : ctr ≤ (mergeKeywordsResult data g ctr).2.2 :=
      le_trans (ups_counter_le data g ctr) (mergeKeywords_counter_le data g ctr)
    omega

/-- Witness for C6 (amended): a concrete mention re-emitted in different
case gets a fresh node that carries over the stored position of the prior
mention of the same website. -/
theorem mention_fresh_node_witness :
    (⟨"ALICE", "new ctx"⟩ : PageMention) ∈
      (⟨some ("u"), some ("t"), none, [], [⟨"ALICE", "new ctx"⟩]⟩ :
        ExtractedPageData).mentions ∧
    2 ≤ ("ALICE").length ∧ ("new ctx") ≠ "" ∧
    ∃ m ∈ (processPageData ⟨some ("u"), some ("t"), none, [], [⟨"ALICE", "new ctx"⟩]⟩
        ⟨[⟨0, some ("u"), some ("t"), none, 0, none⟩], [],
          [⟨1, "Alice", 0, "old ctx", some ⟨3, 4⟩⟩], [], [⟨2, 0, 1⟩]⟩
        3).1.mentions,
      m.text = ("ALICE") ∧ m.context = ("new ctx") ∧
      m.sourceWebsiteId = mergedWebsiteId
        ⟨some ("u"), some ("t"), none, [], [⟨"ALICE", "new ctx"⟩]⟩
        ⟨[⟨0, some ("u"), some ("t"), none, 0, none⟩], [],
          [⟨1, "Alice", 0, "old ctx", some ⟨3, 4⟩⟩], [], [⟨2, 0, 1⟩]⟩ 3 ∧
      m.position = (((⟨[⟨0, some ("u"), some ("t"), none, 0, none⟩], [],
          [⟨1, "Alice", 0, "old ctx", some ⟨3, 4⟩⟩], [], [⟨2, 0, 1⟩]⟩ :
            GraphData).mentions.filter
        (fun x => x.sourceWebsiteId == mergedWebsiteId
          ⟨some ("u"), some ("t"), none, [], [⟨"ALICE", "new ctx"⟩]⟩
          ⟨[⟨0, some ("u"), some ("t"), none, 0, none⟩], [],
            [⟨1, "Alice", 0, "old ctx", some ⟨3, 4⟩⟩], [], [⟨2, 0, 1⟩]⟩ 3)).find?
          (fun x => strLower x.text == strLower (("ALICE")))).bind
        (fun x => x.position) ∧
      (BoundedGraph ⟨[⟨0, some ("u"), some ("t"), none, 0, none⟩], [],
          [⟨1, "Alice", 0, "old ctx", some ⟨3, 4⟩⟩], [], [⟨2, 0, 1⟩]⟩ 3 →
        ∀ m0 ∈ (⟨[⟨0, some ("u"), some ("t"), none, 0, none⟩], [],
          [⟨1, "Alice", 0, "old ctx", some ⟨3, 4⟩⟩], [], [⟨2, 0, 1⟩]⟩ :
            GraphData).mentions, m0.id ≠ m.id) :=
  ⟨by decide, by decide, by decide,
    mention_fresh_node ⟨some ("u"), some ("t"), none, [], [⟨"ALICE", "new ctx"⟩]⟩
      ⟨[⟨0, some ("u"), some ("t"), none, 0, none⟩], [],
        [⟨1, "Alice", 0, "old ctx", some ⟨3, 4⟩⟩], [], [⟨2, 0, 1⟩]⟩ 3
      ⟨"ALICE", "new ctx"⟩ (by decide) (by decide) (by decide)⟩

/-- C6 counterexample: re-merging the exact same page does not look up the
existing mention node — the stored mention node's id changes from 3 to 6
(a fresh node), and a mention whose text is non-empty but shorter than 2
characters produces no mention node at all. -/
theorem mention_identity_counterexample :
    ((runMerges [⟨some ("u"), some ("t"), none, ["alpha"], [⟨"Alice", "ctx"⟩]⟩]
        (emptyGraphData, 0)).1.mentions.map (fun m => m.id) = [3]) ∧
    ((runMerges [⟨some ("u"), some ("t"), none, ["alpha"], [⟨"Alice", "ctx"⟩]⟩,
        ⟨some ("u"), some ("t"), none, ["alpha"], [⟨"Alice", "ctx"⟩]⟩]
        (emptyGraphData, 0)).1.mentions.map (fun m => m.id) = [6]) ∧
    ((processPageData ⟨some ("u"), some ("t"), none, ["alpha"], [⟨"a", "ctx"⟩]⟩
        emptyGraphData 0).1.mentions = []) := by
  decide

/-! ### Claim C7: deterministic initial placement -/

theorem jsMod_bounds (a m : ℚ) (hm : 0 < m) : 0 ≤ jsMod a m ∧ jsMod a m < m := by
  have h1 : ((⌊a / m⌋ : ℤ) : ℚ) ≤ a / m := Int.floor_le _
  have h2 : a / m < ((⌊a / m⌋ : ℤ) : ℚ) + 1 := Int.lt_floor_add_one _
  have h3 : m * (a / m) = a := by field_simp
  have h4 := mul_le_mul_of_nonneg_left h1 hm.le
  have h5 := (mul_lt_mul_left hm).2 h2
  rw [h3] at h4 h5
  constructor
  · rw [jsMod]
    linarith
  · rw [jsMod]
    linarith

/-- C7: the initial coordinate produced for a node lacking a stored position
is a pure function of the seed string and the viewport dimension — two
computations with the same node id and the same dimensions agree exactly —
and for a positive dimension it lies in
`[margin, dimension - margin]` with `margin = 0.1 * dimension`. -/
theorem deterministic_initial_placement :
    (∀ (seed : String) (d : ℚ), 0 < d →
      d * (1 / 10) ≤ generateDeterministicPosition seed d ∧
      generateDeterministicPosition seed d ≤ d - d * (1 / 10)) ∧
    (∀ (s1 s2 : WebsiteNode) (w h : ℚ), s1.id = s2.id →
      (createWebsiteNode s1 w h).x = (createWebsiteNode s2 w h).x ∧
      (createWebsiteNode s1 w h).y = (createWebsiteNode s2 w h).y) ∧
    (∀ (k1 k2 : KeywordNode) (w h : ℚ), k1.id = k2.id →
      (createKeywordNode k1 w h).x = (createKeywordNode k2 w h).x ∧
      (createKeywordNode k1 w h).y = (createKeywordNode k2 w h).y) := by
  refine ⟨?_, ?_, ?_⟩
  · intro seed d hd
    have hm : 0 < d - 2 * (d * (1 / 10)) := by linarith
    obtain ⟨hlo, hhi⟩ := jsMod_bounds (((jsHash seed).natAbs : ℚ)) _ hm
    simp only [generateDeterministicPosition]
    constructor
    · linarith
    · linarith
  · intro s1 s2 w h hid
    constructor <;> simp [createWebsiteNode, hid]
  · intro k1 k2 w h hid
    constructor <;> simp [createKeywordNode, hid]

/-- Witness for C7: the bounds instantiated at a concrete seed and viewport,
and determinism at two website records sharing an id. -/
theorem deterministic_initial_placement_witness :
    (0 < (100 : ℚ) ∧
      (100 : ℚ) * (1 / 10) ≤ generateDeterministicPosition ("website-3-x") 100 ∧
      generateDeterministicPosition ("website-3-x") 100 ≤ 100 - 100 * (1 / 10)) ∧
    ((⟨3, some ("a"), some ("b"), none, 0, none⟩ : WebsiteNode).id =
      (⟨3, some ("c"), none, none, 9, none⟩ : WebsiteNode).id ∧
      (createWebsiteNode ⟨3, some ("a"), some ("b"), none, 0, none⟩ 100 50).x =
        (createWebsiteNode ⟨3, some ("c"), none, none, 9, none⟩ 100 50).x ∧
      (createWebsiteNode ⟨3, some ("a"), some ("b"), none, 0, none⟩ 100 50).y =
        (createWebsiteNode ⟨3, some ("c"), none, none, 9, none⟩ 100 50).y) :=
  ⟨⟨by norm_num, deterministic_initial_placement.1 ("website-3-x") 100 (by norm_num)⟩,
    ⟨rfl, deterministic_initial_placement.2.1 ⟨3, some ("a"), some ("b"), none, 0, none⟩
      ⟨3, some ("c"), none, none, 9, none⟩ 100 50 rfl⟩⟩

/-! ### Claim C8: cache short-circuit -/

theorem cacheLookup_insert (cache : LayoutCache) (key : String)
    (v : List FlowNode × List GraphEdge) :
    cacheLookup (cacheInsert cache key v) key = some v := by
  rw [cacheLookup, cacheInsert, List.find?_cons_of_pos _ (by simp)]
  rfl

theorem computeLayout_hit (sim : Simulation) (cache : LayoutCache) (key : String)
    (gd : Option GraphData) (w h : ℚ) (ns : List FlowNode) (es : List GraphEdge)
    (hl : cacheLookup cache ("history-graph-" ++ key) = some (ns, es))
    (hn : 0 < ns.length) :
    computeLayout sim cache key gd w h = ((ns, es), cache, 0) := by
  rw [computeLayout, hl]
  simp only [if_pos hn]

theorem applyForceLayout_run (sim : Simulation) (nodes : List FlowNode)
    (edges : List GraphEdge) (w h : ℚ) (key : String) (cache : LayoutCache)
    (hn : ¬nodes.length = 0) :
    ∃ lay : List FlowNode, lay.length = nodes.length ∧
      applyForceLayout sim nodes edges w h key cache =
        ((lay, edges), cacheInsert cache ("history-graph-" ++ key) (lay, edges), 1) := by
  rw [applyForceLayout, if_neg hn]
  exact ⟨_, by simp, rfl⟩

/-- C8: if the layout cache already holds an entry for the exact fingerprint
string, the layout computation returns the cached node and edge lists
unchanged, leaves the cache untouched and runs the simulation zero times
(engine-written entries are always non-empty, which the hit requires); and
calling the layout twice with the same fingerprint over a non-empty stored
graph makes the second call return exactly what the first call produced,
again without running the simulation. -/
theorem cache_short_circuit :
    (∀ (sim : Simulation) (cache : LayoutCache) (key : String)
      (gd : Option GraphData) (w h : ℚ) (ns : List FlowNode) (es : List GraphEdge),
      cacheLookup cache ("history-graph-" ++ key) = some (ns, es) →
      0 < ns.length →
      computeLayout sim cache key gd w h = ((ns, es), cache, 0)) ∧
    (∀ (sim : Simulation) (cache : LayoutCache) (key : String) (gd : GraphData)
      (w h : ℚ),
      cacheLookup cache ("history-graph-" ++ key) = none → gd.websites ≠ [] →
      (computeLayout sim cache key (some gd) w h).2.2 = 1 ∧
      computeLayout sim
        (computeLayout sim cache key (some gd) w h).2.1 key (some gd) w h =
        ((computeLayout sim cache key (some gd) w h).1,
          (computeLayout sim cache key (some gd) w h).2.1, 0)) := by
  constructor
  · exact fun sim cache key gd w h ns es hl hn => computeLayout_hit sim cache key gd w h ns es hl hn
  · intro sim cache key gd w h hnone hws
    have hflow : ¬(gd.websites.map (fun site => createWebsiteNode site w h) ++
        gd.keywords.map (fun keyword => createKeywordNode keyword w h)).length = 0 := by
      have h1 : 0 < gd.websites.length := List.length_pos.2 hws
      simp only [List.length_append, List.length_map]
      omega
    obtain ⟨lay, hlen, happ⟩ := applyForceLayout_run sim
      (gd.websites.map (fun site => createWebsiteNode site w h) ++
        gd.keywords.map (fun keyword => createKeywordNode keyword w h))
      gd.websiteToKeywordEdges w h key cache hflow
    have hfirst : computeLayout sim cache key (some gd) w h =
        ((lay, gd.websiteToKeywordEdges),
          cacheInsert cache ("history-graph-" ++ key) (lay, gd.websiteToKeywordEdges),
          1) := by
      rw [computeLayout, hnone, loadFromStorage, if_pos (List.length_pos.2 hws),
        processGraphData]
      exact happ
    have hlaypos : 0 < lay.length := by
      rw [hlen]
      omega
    rw [hfirst]
    exact ⟨rfl, computeLayout_hit sim _ key (some gd) w h lay gd.websiteToKeywordEdges
      (cacheLookup_insert cache ("history-graph-" ++ key)
        (lay, gd.websiteToKeywordEdges)) hlaypos⟩

/-- Witness for C8: a concrete cache hit is served unchanged with zero
simulation runs. -/
theorem cache_short_circuit_witness :
    cacheLookup [("history-graph-fp", ([⟨1, "website", 0, 0⟩], []))]
      ("history-graph-" ++ "fp") = some ([⟨1, "website", 0, 0⟩], []) ∧
    0 < ([(⟨1, "website", 0, 0⟩ : FlowNode)]).length ∧
    computeLayout idSimulation [("history-graph-fp", ([⟨1, "website", 0, 0⟩], []))]
      ("fp") none 100 100 =
      (([⟨1, "website", 0, 0⟩], []),
        [("history-graph-fp", ([⟨1, "website", 0, 0⟩], []))], 0) :=
  ⟨by decide, by decide,
    cache_short_circuit.1 idSimulation
      [("history-graph-fp", ([⟨1, "website", 0, 0⟩], []))] ("fp") none 100 100
      [⟨1, "website", 0, 0⟩] [] (by decide) (by decide)⟩

/-! ### Claim C9: search correctness -/

/-- C9: `searchByKeyword` matches case-insensitively by substring, and a
website is returned exactly when it is stored and either its title or url
contains the query, or one of its own keywords matches the query, or one of
its own mentions matches the query by text or context — so a website is
found through its keywords/mentions even when its own title and url do not
contain the query. -/
theorem search_correctness (state : GraphData) (q : String) (w : WebsiteNode)
    (ti ur : String) (hti : w.title = some ti) (hur : w.url = some ur) :
    w ∈ (searchByKeyword state q).1 ↔
      w ∈ state.websites ∧
      ((∃ k ∈ state.keywords, strIncludes (strLower k.text) (strLower q) ∧
          k.sourceWebsiteId = some w.id) ∨
        (∃ m ∈ state.mentions,
          (strIncludes (strLower m.text) (strLower q) ∨
            strIncludes (strLower m.context) (strLower q)) ∧
          m.sourceWebsiteId = w.id) ∨
        strIncludes (strLower ti) (strLower q) ∨
        strIncludes (strLower ur) (strLower q)) := by
  simp only [searchByKeyword, List.mem_filter, List.contains, List.elem_iff,
    List.mem_append, List.mem_map, Bool.or_eq_true, optLowerIncludes, hti, hur,
    Option.some.injEq, and_assoc, or_assoc]

/-- Witness for C9: a website whose own title and url do not contain the
query is characterized through its keyword ownership. -/
theorem search_correctness_witness :
    (⟨1, some ("https://example.org"), some ("Other"), none, 0, none⟩ :
      WebsiteNode).title = some ("Other") ∧
    (⟨1, some ("https://example.org"), some ("Other"), none, 0, none⟩ :
      WebsiteNode).url = some ("https://example.org") ∧
    ((⟨1, some ("https://example.org"), some ("Other"), none, 0, none⟩ :
        WebsiteNode) ∈
      (searchByKeyword
        ⟨[⟨0, some ("https://ui.shadcn.com"), some ("Shadcn UI"), none, 0, none⟩,
          ⟨1, some ("https://example.org"), some ("Other"), none, 0, none⟩],
          [⟨2, "tailwind", some 1, none⟩], [], [], []⟩ ("tail")).1 ↔
      (⟨1, some ("https://example.org"), some ("Other"), none, 0, none⟩ :
        WebsiteNode) ∈
        (⟨[⟨0, some ("https://ui.shadcn.com"), some ("Shadcn UI"), none, 0, none⟩,
          ⟨1, some ("https://example.org"), some ("Other"), none, 0, none⟩],
          [⟨2, "tailwind", some 1, none⟩], [], [], []⟩ : GraphData).websites ∧
        ((∃ k ∈ (⟨[⟨0, some ("https://ui.shadcn.com"), some ("Shadcn UI"), none, 0,
            none⟩, ⟨1, some ("https://example.org"), some ("Other"), none, 0, none⟩],
            [⟨2, "tailwind", some 1, none⟩], [], [], []⟩ : GraphData).keywords,
          strIncludes (strLower k.text) (strLower ("tail")) ∧
          k.sourceWebsiteId = some (⟨1, some ("https://example.org"), some ("Other"),
            none, 0, none⟩ : WebsiteNode).id) ∨
        (∃ m ∈ (⟨[⟨0, some ("https://ui.shadcn.com"), some ("Shadcn UI"), none, 0,
            none⟩, ⟨1, some ("https://example.org"), some ("Other"), none, 0, none⟩],
            [⟨2, "tailwind", some 1, none⟩], [], [], []⟩ : GraphData).mentions,
          (strIncludes (strLower m.text) (strLower ("tail")) ∨
            strIncludes (strLower m.context) (strLower ("tail"))) ∧
          m.sourceWebsiteId = (⟨1, some ("https://example.org"), some ("Other"),
            none, 0, none⟩ : WebsiteNode).id) ∨
        strIncludes (strLower ("Other")) (strLower ("tail")) ∨
        strIncludes (strLower ("https://example.org")) (strLower ("tail")))) :=
  ⟨rfl, rfl,
    search_correctness
      ⟨[⟨0, some ("https://ui.shadcn.com"), some ("Shadcn UI"), none, 0, none⟩,
        ⟨1, some ("https://example.org"), some ("Other"), none, 0, none⟩],
        [⟨2, "tailwind", some 1, none⟩], [], [], []⟩ ("tail")
      ⟨1, some ("https://example.org"), some ("Other"), none, 0, none⟩
      ("Other") ("https://example.org") rfl rfl⟩

end ReCall
